import Mathlib

/-!
Verification development for the yt-transcript-dl tool (src/yt-transcript-dl.py).

The program is embedded shallowly:
* Python floats are modelled as exact rationals (ℚ).  `timedelta(seconds=s)`
  stores whole microseconds (rounding half to even), which is modelled by
  `microQuant`; `format(x, '.3f')` rounds the value half to even at the third
  decimal digit, modelled by `roundHalfEven`.  The sub-microsecond binary
  representation error of IEEE doubles is below every tolerance stated here.
* Fallible functions return `Except`; `sys.exit(1)` and console/file/clipboard
  side effects of the CLI driver are modelled by an event trace (`Ev`).
* `float.__repr__` prints the shortest decimal that round-trips; the model
  `pyFloatRepr` prints the shortest exactly-terminating decimal instead, which
  agrees on all decimally-exact inputs and is an exact rendering of the
  modelled rational in every case.
-/

/-- CaptionEntry: one timed caption line `{text, start, duration}` as returned
by the transcript provider (src data model). -/
structure CaptionEntry where
  text : String
  start : ℚ
  duration : ℚ
deriving DecidableEq

/-- Floor of a rational, computed as in `Rat.floor_def`. -/
def ratFloor (q : ℚ) : ℤ := q.num / q.den

/-- Python `int(x)` on a float: truncation toward zero. -/
def ratTrunc (q : ℚ) : ℤ := q.num.tdiv q.den

/-- Python `x % m` for floats with positive modulus: `x - m * floor(x / m)`. -/
def pyMod (x m : ℚ) : ℚ := x - m * ratFloor (x / m)

/-- Round half to even, as used by float formatting and `timedelta` rounding. -/
def roundHalfEven (q : ℚ) : ℤ :=
  let f := ratFloor q
  let r := q - f
  if r < 1/2 then f else if 1/2 < r then f + 1 else if f % 2 = 0 then f else f + 1

/-- `timedelta(seconds=s).total_seconds()`: the value quantized to whole
microseconds (Python rounds fractional microseconds half to even). -/
def microQuant (t : ℚ) : ℚ := (roundHalfEven (1000000 * t) : ℚ) / 1000000

/-- Decimal digits of `n`, most significant first, with explicit fuel so the
definition reduces in the kernel.  Empty for `n = 0`. -/
def natReprAux : ℕ → ℕ → List Char
  | 0, _ => []
  | f + 1, n => if n = 0 then [] else natReprAux f (n / 10) ++ [Char.ofNat (48 + n % 10)]

/-- Decimal rendering of a natural number (Python `str`). -/
def natChars (n : ℕ) : List Char := if n = 0 then ['0'] else natReprAux n n

/-- Decimal rendering of an integer (Python `str`). -/
def intChars (i : ℤ) : List Char :=
  if i < 0 then '-' :: natChars i.natAbs else natChars i.natAbs

/-- Python f-string `{i:02d}`: zero-pad the decimal rendering to width 2. -/
def pad2 (i : ℤ) : String := ⟨if (intChars i).length < 2 then '0' :: intChars i else intChars i⟩

/-- Zero-pad the decimal rendering of `n` to width `w` (Python `{n:0wd}`). -/
def padN (w : ℕ) (n : ℕ) : String := ⟨List.replicate (w - (natChars n).length) '0' ++ natChars n⟩

/-- Python `str(n)` for a natural number, as a `String`. -/
def natRepr (n : ℕ) : String := ⟨natChars n⟩

/-- Python `sep.join(parts)`. -/
def pyJoin (sep : String) : List String → String
  | [] => ""
  | [s] => s
  | s :: rest => s ++ sep ++ pyJoin sep rest

/-- `format_timestamp` (src lines 120-140): truncate `start` to whole seconds
and render `[HH:MM:SS]` with floor division and Python's nonnegative `%`. -/
def format_timestamp (entry : CaptionEntry) : String :=
  let time : ℤ := ratTrunc entry.start
  let hours : ℤ := Int.fdiv time 3600
  let minutes : ℤ := Int.fdiv (Int.emod time 3600) 60
  let seconds : ℤ := Int.emod time 60
  "[" ++ pad2 hours ++ ":" ++ pad2 minutes ++ ":" ++ pad2 seconds ++ "]"

/-- Python f-string `{v:06.3f}` for a nonnegative value, with the decimal
separator `sep` substituted.  The source formats with `.` and for SRT replaces
the only `.` (the decimal point) by `,`. -/
def fmtSec (sep : Char) (v : ℚ) : String :=
  let m : ℕ := (roundHalfEven (1000 * v)).toNat
  pad2 (m / 1000 : ℕ) ++ String.singleton sep ++ padN 3 (m % 1000)

/-- `format_srt_timestamp` (src lines 142-156): `HH:MM:SS,mmm` of
`timedelta(seconds=seconds).total_seconds()`. -/
def format_srt_timestamp (seconds : ℚ) : String :=
  let t := microQuant seconds
  pad2 (ratFloor (t / 3600)) ++ ":" ++ pad2 (ratFloor (pyMod t 3600 / 60)) ++ ":" ++
    fmtSec ',' (pyMod t 60)

/-- `format_vtt_timestamp` (src lines 158-172): as SRT but with `.`. -/
def format_vtt_timestamp (seconds : ℚ) : String :=
  let t := microQuant seconds
  pad2 (ratFloor (t / 3600)) ++ ":" ++ pad2 (ratFloor (pyMod t 3600 / 60)) ++ ":" ++
    fmtSec '.' (pyMod t 60)

/-- Hex digit character (lowercase), as used by Python's `\u00XX` escapes. -/
def hexChar : ℕ → Char
  | 0 => '0' | 1 => '1' | 2 => '2' | 3 => '3' | 4 => '4'
  | 5 => '5' | 6 => '6' | 7 => '7' | 8 => '8' | 9 => '9'
  | 10 => 'a' | 11 => 'b' | 12 => 'c' | 13 => 'd' | 14 => 'e' | _ => 'f'

/-- JSON string escaping of one character as done by `json.dumps` with
`ensure_ascii=False`: short escapes for the usual controls plus quote and
backslash, `\u00XX` for the remaining control characters, everything else
(including non-ASCII) literal. -/
def escCharL (c : Char) : List Char :=
  if c = '"' then ['\\', '"']
  else if c = '\\' then ['\\', '\\']
  else if c = '\n' then ['\\', 'n']
  else if c = '\r' then ['\\', 'r']
  else if c = '\t' then ['\\', 't']
  else if c.toNat = 8 then ['\\', 'b']
  else if c.toNat = 12 then ['\\', 'f']
  else if c.toNat < 32 then ['\\', 'u', '0', '0', hexChar (c.toNat / 16), hexChar (c.toNat % 16)]
  else [c]

/-- JSON rendering of a string literal (quotes plus escaped body). -/
def pyJsonStr (s : String) : String := "\"" ++ ⟨(s.data.map escCharL).flatten⟩ ++ "\""

/-- 2-adic valuation with fuel (kernel-reducible). -/
def v2Aux : ℕ → ℕ → ℕ
  | 0, _ => 0
  | f + 1, n => if n % 2 = 0 ∧ n ≠ 0 then v2Aux f (n / 2) + 1 else 0

/-- 5-adic valuation with fuel (kernel-reducible). -/
def v5Aux : ℕ → ℕ → ℕ
  | 0, _ => 0
  | f + 1, n => if n % 5 = 0 ∧ n ≠ 0 then v5Aux f (n / 5) + 1 else 0

/-- Number of decimal digits needed to render `q` exactly: enough tens to
clear the powers of 2 and 5 in the denominator. -/
def decExp (q : ℚ) : ℕ := max (v2Aux q.den q.den) (v5Aux q.den q.den)

/-- Decimal rendering of a float value as emitted by `json.dumps` /
`float.__repr__`: modelled as the exact terminating decimal (integral values
get a trailing `.0`, exactly as `repr` prints them). -/
def pyFloatRepr (q : ℚ) : String :=
  let k := decExp q
  let m := (q * 10 ^ k).num
  let sign : String := if m < 0 then "-" else ""
  if k = 0 then sign ++ natRepr m.natAbs ++ ".0"
  else sign ++ natRepr (m.natAbs / 10 ^ k) ++ "." ++ padN k (m.natAbs % 10 ^ k)

/-- Python `s.strip(chars)`: drop the given characters from both ends. -/
def pyStrip (s : String) (chars : List Char) : String :=
  ⟨((s.data.dropWhile (· ∈ chars)).reverse.dropWhile (· ∈ chars)).reverse⟩

/-- One object of the JSON output at indent level 1, exactly as `json.dumps`
lays it out for `indent=2` (keys in insertion order text, start, duration). -/
def dumpEntry (text start : String) (duration : ℚ) : String :=
  "  \x7b\n    \"text\": " ++ pyJsonStr text ++ ",\n    \"start\": " ++ pyJsonStr start ++
    ",\n    \"duration\": " ++ pyFloatRepr duration ++ "\n  \x7d"

/-- `json.dumps(list, indent=2, ensure_ascii=False)` for the list of transcript
objects built by the json branch of `format_transcript`. -/
def pyJsonDumps (l : List (String × String × ℚ)) : String :=
  if l.isEmpty then "[]"
  else "[\n" ++ pyJoin ",\n" (l.map fun t => dumpEntry t.1 t.2.1 t.2.2) ++ "\n]"

/-- Modelled from the spec: the external `TextFormatter().format_transcript`
(youtube_transcript_api) used by the no-timestamps text branch is not part of
this repository; the spec defines the implementer's join rule as joining the
literal entry texts with newlines. -/
def textFormatterFormat (transcript : List CaptionEntry) : String :=
  pyJoin "\n" (transcript.map (·.text))

/-- `format_transcript` (src lines 58-118). -/
def format_transcript (transcript : List CaptionEntry) (format_type : String)
    (include_timestamps : Bool) : Except String String :=
  if format_type = "text" then
    if include_timestamps then
      .ok (pyJoin "\n" (transcript.map fun entry => format_timestamp entry ++ " " ++ entry.text))
    else
      .ok (textFormatterFormat transcript)
  else if format_type = "json" then
    .ok (pyJsonDumps (transcript.map fun entry =>
      (entry.text, pyStrip (format_timestamp entry) ['[', ']'], entry.duration)))
  else if format_type = "srt" then
    .ok (pyJoin "\n" ((transcript.enum.map fun p =>
      [natRepr (p.1 + 1),
       format_srt_timestamp p.2.start ++ " --> " ++ format_srt_timestamp (p.2.start + p.2.duration),
       p.2.text,
       ""]).flatten))
  else if format_type = "vtt" then
    .ok (pyJoin "\n" ("WEBVTT\n" :: (transcript.map fun entry =>
      [format_vtt_timestamp entry.start ++ " --> " ++ format_vtt_timestamp (entry.start + entry.duration),
       entry.text,
       ""]).flatten))
  else
    .error ("Invalid format type: " ++ format_type)

/-- Character class `[0-9A-Za-z_-]` of the video-id patterns. -/
def isIdChar (c : Char) : Bool :=
  ('0' ≤ c && c ≤ '9') || ('A' ≤ c && c ≤ 'Z') || ('a' ≤ c && c ≤ 'z') || c = '_' || c = '-'

/-- The `([0-9A-Za-z_-]{11})` capture attempt: take exactly 11 class characters
here; the trailing `.*` of the first pattern always matches and captures
nothing. -/
def take11 (cs : List Char) : Option (List Char) :=
  if 11 ≤ cs.length ∧ (cs.take 11).all isIdChar then some (cs.take 11) else none

/-- Match attempt of pattern `(?:v=|\/)([0-9A-Za-z_-]{11}).*` at one position:
literal `v=` or `/`, then 11 class characters. -/
def matchP1At : List Char → Option (List Char)
  | c1 :: c2 :: rest =>
    if c1 = 'v' ∧ c2 = '=' then take11 rest
    else if c1 = '/' then take11 (c2 :: rest) else none
  | [c1] => if c1 = '/' then take11 [] else none
  | [] => none

/-- `re.search` of the first pattern: leftmost position where it matches. -/
def searchP1 : List Char → Option (List Char)
  | [] => none
  | c :: cs =>
    match matchP1At (c :: cs) with
    | some r => some r
    | none => searchP1 cs

/-- `re.search` of `^([0-9A-Za-z_-]{11})$`: anchored at the start; `$` matches
at the end of the string or just before one final newline. -/
def matchP2 (cs : List Char) : Option (List Char) :=
  if cs.length = 11 ∧ cs.all isIdChar then some cs
  else if (cs.take 11).all isIdChar ∧ cs.drop 11 = ['\n'] then some (cs.take 11)
  else none

/-- `get_video_id` (src lines 13-37): try the URL pattern, then the bare-id
pattern; raise `ValueError` when neither matches. -/
def get_video_id (url_or_id : String) : Except String String :=
  match searchP1 url_or_id.data with
  | some g => .ok ⟨g⟩
  | none =>
    match matchP2 url_or_id.data with
    | some g => .ok ⟨g⟩
    | none => .error "Invalid YouTube URL or video ID"

/-- `get_default_extension` (src lines 218-234): dictionary lookup with
default `.txt`. -/
def get_default_extension (format_type : String) : String :=
  if format_type = "text" then ".txt"
  else if format_type = "json" then ".json"
  else if format_type = "srt" then ".srt"
  else if format_type = "vtt" then ".vtt"
  else ".txt"

/-- Observable actions of one invocation: console lines, error lines, the
provider call, clipboard writes, file writes. -/
inductive Ev where
  | out (s : String)
  | err (s : String)
  | fetchAttempt
  | clip (s : String)
  | fileWrite (name content : String)
deriving DecidableEq

/-- Parsed CLI arguments (argparse restricts `format` to the four choices). -/
structure Args where
  video_id : String
  output_file : Option String
  format : String
  add_timestamps : Bool
  verbose : Bool
  clipboard : Bool

/-- Outcomes of the external collaborators for this invocation: the transcript
provider, `pyperclip.copy`, and the file system write. -/
structure Provider where
  fetch : Except String (List CaptionEntry)
  clip : Except String Unit
  write : Except String Unit

/-- The 40-dash separator line `"-" * 40`. -/
def dashes : String := ⟨List.replicate 40 '-'⟩

/-- The verbose echo: `print("\nTranscript content:")`, separator, content,
separator (src lines 191-195 and 278-282). -/
def echoBlock (content : String) : List Ev :=
  [.out "\nTranscript content:", .out dashes, .out content, .out dashes]

/-- `save_to_file` (src lines 174-199): write, report, optional verbose echo;
on failure print to stderr and exit 1 (returned as `some 1`). -/
def save_to_file (write : Except String Unit) (content filename : String) (verbose : Bool) :
    List Ev × Option ℕ :=
  match write with
  | .ok _ =>
    ([.fileWrite filename content, .out ("Transcript saved to " ++ filename)] ++
      (if verbose then echoBlock content else []), none)
  | .error e => ([.err ("Error saving file: " ++ e)], some 1)

/-- `copy_to_clipboard` (src lines 201-216). -/
def copy_to_clipboard (clip : Except String Unit) (content : String) : List Ev × Option ℕ :=
  match clip with
  | .ok _ => ([.clip content, .out "Transcript copied to clipboard"], none)
  | .error e => ([.err ("Error copying to clipboard: " ++ e)], some 1)

/-- The output-filename adjustment of `main` (src lines 266-267): if a
(truthy) output file contains no `.`, append the default extension of the
active format. -/
def adjustedOutputFile (output_file : Option String) (format : String) : Option String :=
  match output_file with
  | some p =>
    if p ≠ "" ∧ '.' ∉ p.data then some (p ++ get_default_extension format) else some p
  | none => none

/-- The source `main` (src lines 236-286); named `mainRun` because Lean reserves `main` after argument parsing: extract the id, fetch
(a failing fetch prints to stderr and exits 1 directly from `get_transcript`),
format, adjust the output filename, then dispatch to clipboard, file or
stdout, with the final verbose-and-clipboard echo.  Python truthiness makes an
empty-string output file behave as absent. -/
def mainRun (args : Args) (prov : Provider) : List Ev × ℕ :=
  match get_video_id args.video_id with
  | .error msg => ([.err ("Error: " ++ msg)], 1)
  | .ok _vid =>
    match prov.fetch with
    | .error e => ([.fetchAttempt, .err ("Error fetching transcript: " ++ e)], 1)
    | .ok transcript =>
      match format_transcript transcript args.format args.add_timestamps with
      | .error msg => ([.fetchAttempt, .err ("Error: " ++ msg)], 1)
      | .ok formatted =>
        let out1 : Option String := adjustedOutputFile args.output_file args.format
        let clipRes : List Ev × Option ℕ :=
          if args.clipboard then copy_to_clipboard prov.clip formatted else ([], none)
        match clipRes.2 with
        | some code => (Ev.fetchAttempt :: clipRes.1, code)
        | none =>
          let fileRes : List Ev × Option ℕ :=
            match out1 with
            | some p =>
              if p ≠ "" then save_to_file prov.write formatted p args.verbose
              else if args.clipboard then ([], none) else ([.out formatted], none)
            | none => if args.clipboard then ([], none) else ([.out formatted], none)
          match fileRes.2 with
          | some code => (Ev.fetchAttempt :: (clipRes.1 ++ fileRes.1), code)
          | none =>
            let tail := if args.verbose ∧ args.clipboard then echoBlock formatted else []
            (Ev.fetchAttempt :: (clipRes.1 ++ fileRes.1 ++ tail), 0)

/-- Spec-side SRT block: 1-based sequence number, timestamp line with
`start --> start+duration`, the literal text, then a blank line. -/
def srtSpecBlock (i : ℕ) (e : CaptionEntry) : String :=
  natRepr i ++ "\n" ++
    format_srt_timestamp e.start ++ " --> " ++ format_srt_timestamp (e.start + e.duration) ++
    "\n" ++ e.text ++ "\n"

/-- Spec-side SRT output: blocks in entry order joined with newlines. -/
def srtSpec (entries : List CaptionEntry) : String :=
  pyJoin "\n" (entries.enum.map fun p => srtSpecBlock (p.1 + 1) p.2)

/-- Spec-side VTT block: as SRT but without the sequence number and with `.`
as decimal separator. -/
def vttSpecBlock (e : CaptionEntry) : String :=
  format_vtt_timestamp e.start ++ " --> " ++ format_vtt_timestamp (e.start + e.duration) ++
    "\n" ++ e.text ++ "\n"

/-- Spec-side VTT body: blocks joined with newlines (without the header). -/
def vttBody (entries : List CaptionEntry) : String :=
  pyJoin "\n" (entries.map vttSpecBlock)

/-- Spec-side text line with timestamps: `[HH:MM:SS] <text>` where `HH:MM:SS`
comes from truncating `start` to whole seconds and decomposing with
hours = floor(s/3600), minutes = floor((s mod 3600)/60), seconds = s mod 60,
zero-padded to two digits. -/
def textTsSpecLine (e : CaptionEntry) : String :=
  let s : ℤ := ratTrunc e.start
  "[" ++ pad2 (Int.fdiv s 3600) ++ ":" ++ pad2 (Int.fdiv (Int.emod s 3600) 60) ++ ":" ++
    pad2 (Int.emod s 60) ++ "] " ++ e.text

/-- Spec-side text-with-timestamps output: lines joined by newlines, no
trailing newline. -/
def textTsSpec (entries : List CaptionEntry) : String :=
  pyJoin "\n" (entries.map textTsSpecLine)

/-- JSON values (as far as this tool's output needs them). -/
inductive JVal where
  | str (s : String)
  | num (q : ℚ)
  | arr (l : List JVal)
  | obj (l : List (String × JVal))

/-- The JSON object the spec promises for one entry: literal text, the
bracket-stripped `HH:MM:SS` start string, and the raw numeric duration. -/
def jsonEntryVal (e : CaptionEntry) : JVal :=
  .obj [("text", .str e.text),
        ("start", .str (pyStrip (format_timestamp e) ['[', ']'])),
        ("duration", .num e.duration)]

/-- JSON whitespace. -/
def jws (c : Char) : Bool := c = ' ' || c = '\n' || c = '\t' || c = '\r'

/-- Skip JSON whitespace. -/
def skipWs (cs : List Char) : List Char := cs.dropWhile jws

/-- Decimal digit test. -/
def isDig (c : Char) : Bool := '0' ≤ c && c ≤ '9'

/-- Value of a decimal digit character. -/
def digVal (c : Char) : ℕ := c.toNat - 48

/-- Consume leading digits, accumulating value and digit count. -/
def parseNatAux : List Char → ℕ → ℕ → ℕ × ℕ × List Char
  | [], acc, k => (acc, k, [])
  | c :: cs, acc, k =>
    if isDig c then parseNatAux cs (10 * acc + digVal c) (k + 1) else (acc, k, c :: cs)

/-- Parse one or more decimal digits: value, digit count, rest. -/
def parseNatL (cs : List Char) : Option (ℕ × ℕ × List Char) :=
  match parseNatAux cs 0 0 with
  | (_, 0, _) => none
  | (v, k + 1, rest) => some (v, k + 1, rest)

/-- Value of a hexadecimal digit character. -/
def hexVal (c : Char) : Option ℕ :=
  if isDig c then some (c.toNat - 48)
  else if 'a' ≤ c && c ≤ 'f' then some (c.toNat - 87)
  else if 'A' ≤ c && c ≤ 'F' then some (c.toNat - 55)
  else none

/-- Parse a JSON string body (after the opening quote) up to the closing
quote, decoding escapes. -/
def parseStrBody : List Char → Option (List Char × List Char)
  | [] => none
  | c :: r =>
    if c = '"' then some ([], r)
    else if c = '\\' then
      match r with
      | [] => none
      | e :: r2 =>
        if e = '"' then (parseStrBody r2).map fun p => ('"' :: p.1, p.2)
        else if e = '\\' then (parseStrBody r2).map fun p => ('\\' :: p.1, p.2)
        else if e = '/' then (parseStrBody r2).map fun p => ('/' :: p.1, p.2)
        else if e = 'n' then (parseStrBody r2).map fun p => ('\n' :: p.1, p.2)
        else if e = 'r' then (parseStrBody r2).map fun p => ('\r' :: p.1, p.2)
        else if e = 't' then (parseStrBody r2).map fun p => ('\t' :: p.1, p.2)
        else if e = 'b' then (parseStrBody r2).map fun p => (Char.ofNat 8 :: p.1, p.2)
        else if e = 'f' then (parseStrBody r2).map fun p => (Char.ofNat 12 :: p.1, p.2)
        else if e = 'u' then
          match r2 with
          | h1 :: h2 :: h3 :: h4 :: r3 =>
            match hexVal h1, hexVal h2, hexVal h3, hexVal h4 with
            | some a, some b, some c2, some d =>
              (parseStrBody r3).map fun p =>
                (Char.ofNat (4096 * a + 256 * b + 16 * c2 + d) :: p.1, p.2)
            | _, _, _, _ => none
          | _ => none
        else none
    else (parseStrBody r).map fun p => (c :: p.1, p.2)

/-- Parse an optional JSON fraction part. -/
def parseFrac : List Char → Option (ℚ × List Char)
  | [] => some (0, [])
  | c :: rf =>
    if c = '.' then (parseNatL rf).map fun p => ((p.1 : ℚ) / 10 ^ p.2.1, p.2.2)
    else some (0, c :: rf)

/-- Parse an optional JSON exponent part, returned as a scale factor. -/
def parseExp : List Char → Option (ℚ × List Char)
  | [] => some (1, [])
  | c :: r =>
    if c = 'e' ∨ c = 'E' then
      match r with
      | '+' :: r2 => (parseNatL r2).map fun p => (((10 : ℚ) ^ p.1 : ℚ), p.2.2)
      | '-' :: r2 => (parseNatL r2).map fun p => (((10 : ℚ) ^ (-(p.1 : ℤ)) : ℚ), p.2.2)
      | _ => (parseNatL r).map fun p => (((10 : ℚ) ^ p.1 : ℚ), p.2.2)
    else some (1, c :: r)

/-- Parse an unsigned JSON number. -/
def parseNumAbs (cs : List Char) : Option (ℚ × List Char) :=
  match parseNatL cs with
  | none => none
  | some (i, _, r1) =>
    match parseFrac r1 with
    | none => none
    | some (f, r2) =>
      match parseExp r2 with
      | none => none
      | some (sc, r3) => some (((i : ℚ) + f) * sc, r3)

/-- Parse a JSON number with optional sign. -/
def parseNum (cs : List Char) : Option (ℚ × List Char) :=
  match cs with
  | [] => none
  | c :: t =>
    if c = '-' then (parseNumAbs t).map fun p => (-p.1, p.2)
    else parseNumAbs (c :: t)

mutual

/-- Parse one JSON value (fuel-bounded recursive descent). -/
def parseVal : ℕ → List Char → Option (JVal × List Char)
  | 0, _ => none
  | f + 1, cs =>
    match skipWs cs with
    | [] => none
    | c :: rest =>
      if c = '"' then (parseStrBody rest).map fun p => (.str ⟨p.1⟩, p.2)
      else if c = '[' then
        match skipWs rest with
        | ']' :: r => some (.arr [], r)
        | _ => (parseElems f rest).map fun p => (.arr p.1, p.2)
      else if c = '\x7b' then
        match skipWs rest with
        | '\x7d' :: r => some (.obj [], r)
        | _ => (parseMembers f rest).map fun p => (.obj p.1, p.2)
      else if c = '-' || isDig c then (parseNum (c :: rest)).map fun p => (.num p.1, p.2)
      else none

/-- Parse the elements of a nonempty JSON array, including the closing
bracket. -/
def parseElems : ℕ → List Char → Option (List JVal × List Char)
  | 0, _ => none
  | f + 1, cs =>
    match parseVal f cs with
    | none => none
    | some (v, r) =>
      match skipWs r with
      | ',' :: r2 => (parseElems f r2).map fun p => (v :: p.1, p.2)
      | ']' :: r2 => some ([v], r2)
      | _ => none

/-- Parse the members of a nonempty JSON object, including the closing
brace. -/
def parseMembers : ℕ → List Char → Option (List (String × JVal) × List Char)
  | 0, _ => none
  | f + 1, cs =>
    match skipWs cs with
    | '"' :: rest =>
      (match parseStrBody rest with
       | none => none
       | some (k, r) =>
         match skipWs r with
         | ':' :: r2 =>
           (match parseVal f r2 with
            | none => none
            | some (v, r3) =>
              match skipWs r3 with
              | ',' :: r4 => (parseMembers f r4).map fun p => ((⟨k⟩, v) :: p.1, p.2)
              | '\x7d' :: r4 => some ([(⟨k⟩, v)], r4)
              | _ => none)
         | _ => none)
    | _ => none

end

/-- Parse a complete JSON document: one value with only whitespace around. -/
def parseJson (s : String) : Option JVal :=
  match parseVal (s.data.length + 2) s.data with
  | some (v, r) => if skipWs r = [] then some v else none
  | none => none

/-- Re-parse an emitted `HH:MM:SS<sep>mmm` timestamp as
`HH*3600 + MM*60 + SS.mmm` seconds. -/
def parseTsWith (sep : Char) (s : String) : Option ℚ :=
  match parseNatL s.data with
  | some (hh, _, ':' :: r1) =>
    (match parseNatL r1 with
     | some (mm, _, ':' :: r2) =>
       (match parseNatL r2 with
        | some (ss, _, c :: r3) =>
          if c = sep then
            match parseNatL r3 with
            | some (mmm, k, []) => some ((hh : ℚ) * 3600 + mm * 60 + ss + (mmm : ℚ) / 10 ^ k)
            | _ => none
          else none
        | _ => none)
     | _ => none)
  | _ => none

/-- The example entry `{text: "Hello", start: 0, duration: 2}`. -/
def helloEntry : CaptionEntry := ⟨"Hello", 0, 2⟩

/-- The example entry `{text: "World", start: 2, duration: 3}`. -/
def worldEntry : CaptionEntry := ⟨"World", 2, 3⟩

/-- Concrete invocation for the clipboard-verbose-file interaction: clipboard
and verbose set, an output file given. -/
def c1Args : Args :=
  { video_id := "dQw4w9WgXcQ", output_file := some "o.txt", format := "text",
    add_timestamps := true, verbose := true, clipboard := true }

/-- Concrete external outcomes: one entry fetched, clipboard and write both
succeed. -/
def c1Prov : Provider :=
  { fetch := .ok [helloEntry], clip := .ok (), write := .ok () }

lemma data_mk (l : List Char) : (⟨l⟩ : String).data = l := rfl

lemma mk_data (s : String) : (⟨s.data⟩ : String) = s := rfl

lemma ratFloor_eq (q : ℚ) : ratFloor q = ⌊q⌋ := Rat.floor_def.symm

lemma ratFloor_natCast_div (a b : ℕ) : ratFloor ((a : ℚ) / (b : ℚ)) = ((a / b : ℕ) : ℤ) := by
  rw [ratFloor_eq]
  exact_mod_cast Rat.floor_natCast_div_natCast a b

lemma pyMod_natCast (a b : ℕ) : pyMod (a : ℚ) (b : ℚ) = ((a % b : ℕ) : ℚ) := by
  unfold pyMod
  rw [ratFloor_natCast_div, Int.cast_natCast]
  have h : (a : ℚ) = (b : ℚ) * ((a / b : ℕ) : ℚ) + ((a % b : ℕ) : ℚ) := by
    exact_mod_cast (Nat.div_add_mod a b).symm
  linarith

lemma rhe_intCast (z : ℤ) : roundHalfEven (z : ℚ) = z := by
  unfold roundHalfEven
  rw [ratFloor_eq, Int.floor_intCast]
  norm_num

lemma rhe_natCast (n : ℕ) : roundHalfEven (n : ℚ) = n := by
  exact_mod_cast rhe_intCast (n : ℤ)

lemma microQuant_natCast (n : ℕ) : microQuant (n : ℚ) = (n : ℚ) := by
  unfold microQuant
  rw [show (1000000 : ℚ) * n = ((1000000 * n : ℕ) : ℚ) by push_cast; ring, rhe_natCast]
  push_cast
  rw [mul_comm, mul_div_assoc]
  norm_num

lemma fmtSec_natCast (sep : Char) (n : ℕ) :
    fmtSec sep (n : ℚ) = pad2 (n : ℤ) ++ String.singleton sep ++ padN 3 0 := by
  simp only [fmtSec]
  rw [show (1000 : ℚ) * n = ((1000 * n : ℕ) : ℚ) by push_cast; ring, rhe_natCast]
  rw [Int.toNat_natCast]
  rw [Nat.mul_div_cancel_left n (by norm_num), Nat.mul_mod_right]

lemma format_srt_timestamp_natCast (n : ℕ) :
    format_srt_timestamp (n : ℚ) =
      pad2 ((n / 3600 : ℕ) : ℤ) ++ ":" ++ pad2 ((n % 3600 / 60 : ℕ) : ℤ) ++ ":" ++
        (pad2 ((n % 60 : ℕ) : ℤ) ++ String.singleton ',' ++ padN 3 0) := by
  simp only [format_srt_timestamp]
  rw [microQuant_natCast,
    show (3600 : ℚ) = ((3600 : ℕ) : ℚ) by norm_num,
    show (60 : ℚ) = ((60 : ℕ) : ℚ) by norm_num,
    pyMod_natCast, pyMod_natCast, ratFloor_natCast_div, ratFloor_natCast_div, fmtSec_natCast]

lemma format_vtt_timestamp_natCast (n : ℕ) :
    format_vtt_timestamp (n : ℚ) =
      pad2 ((n / 3600 : ℕ) : ℤ) ++ ":" ++ pad2 ((n % 3600 / 60 : ℕ) : ℤ) ++ ":" ++
        (pad2 ((n % 60 : ℕ) : ℤ) ++ String.singleton '.' ++ padN 3 0) := by
  simp only [format_vtt_timestamp]
  rw [microQuant_natCast,
    show (3600 : ℚ) = ((3600 : ℕ) : ℚ) by norm_num,
    show (60 : ℚ) = ((60 : ℕ) : ℚ) by norm_num,
    pyMod_natCast, pyMod_natCast, ratFloor_natCast_div, ratFloor_natCast_div, fmtSec_natCast]

lemma ratTrunc_natCast (n : ℕ) : ratTrunc (n : ℚ) = n := by
  unfold ratTrunc
  rw [Rat.num_natCast, Rat.den_natCast]
  simp

lemma srt_ts_0 : format_srt_timestamp 0 = "00:00:00,000" := by
  rw [show (0 : ℚ) = ((0 : ℕ) : ℚ) by norm_num, format_srt_timestamp_natCast]
  decide

lemma srt_ts_2 : format_srt_timestamp 2 = "00:00:02,000" := by
  rw [show (2 : ℚ) = ((2 : ℕ) : ℚ) by norm_num, format_srt_timestamp_natCast]
  decide

lemma srt_ts_5 : format_srt_timestamp 5 = "00:00:05,000" := by
  rw [show (5 : ℚ) = ((5 : ℕ) : ℚ) by norm_num, format_srt_timestamp_natCast]
  decide

lemma vtt_ts_0 : format_vtt_timestamp 0 = "00:00:00.000" := by
  rw [show (0 : ℚ) = ((0 : ℕ) : ℚ) by norm_num, format_vtt_timestamp_natCast]
  decide

lemma vtt_ts_2 : format_vtt_timestamp 2 = "00:00:02.000" := by
  rw [show (2 : ℚ) = ((2 : ℕ) : ℚ) by norm_num, format_vtt_timestamp_natCast]
  decide

lemma vtt_ts_5 : format_vtt_timestamp 5 = "00:00:05.000" := by
  rw [show (5 : ℚ) = ((5 : ℕ) : ℚ) by norm_num, format_vtt_timestamp_natCast]
  decide

lemma pyJoin_cons (sep x : String) (xs : List String) (h : xs ≠ []) :
    pyJoin sep (x :: xs) = x ++ sep ++ pyJoin sep xs := by
  cases xs with
  | nil => exact absurd rfl h
  | cons y ys => rfl

lemma pyJoin_append (sep : String) (l1 l2 : List String) (h1 : l1 ≠ []) (h2 : l2 ≠ []) :
    pyJoin sep (l1 ++ l2) = pyJoin sep l1 ++ sep ++ pyJoin sep l2 := by
  induction l1 with
  | nil => exact absurd rfl h1
  | cons x xs ih =>
    cases xs with
    | nil =>
      cases l2 with
      | nil => exact absurd rfl h2
      | cons y ys => rfl
    | cons z zs =>
      rw [List.cons_append, pyJoin_cons sep x ((z :: zs) ++ l2) (by simp),
        pyJoin_cons sep x (z :: zs) (by simp), ih (by simp)]
      simp [String.append_assoc]

lemma flatten_ne_nil {α : Type} (L : List (List α)) (hL : L ≠ []) (h : ∀ b ∈ L, b ≠ []) :
    L.flatten ≠ [] := by
  cases L with
  | nil => exact absurd rfl hL
  | cons b L' =>
    have hb := h b (by simp)
    cases b with
    | nil => exact absurd rfl hb
    | cons x xs => simp

lemma pyJoin_flatten (sep : String) (L : List (List String)) (h : ∀ b ∈ L, b ≠ []) :
    pyJoin sep L.flatten = pyJoin sep (L.map (pyJoin sep)) := by
  induction L with
  | nil => rfl
  | cons b L' ih =>
    have hb := h b (by simp)
    have hrest : ∀ c ∈ L', c ≠ [] := fun c hc => h c (by simp [hc])
    cases L' with
    | nil => simp; rfl
    | cons c cs =>
      rw [List.flatten_cons,
        pyJoin_append sep b (c :: cs).flatten hb (flatten_ne_nil _ (by simp) hrest),
        List.map_cons, ih hrest,
        pyJoin_cons sep (pyJoin sep b) ((c :: cs).map (pyJoin sep)) (by simp)]

lemma str_eq_of_data {a b : String} (h : a.data = b.data) : a = b := by
  cases a; cases b; exact congrArg String.mk h

lemma srt_flatten_eq (entries : List CaptionEntry) :
    pyJoin "\n" ((entries.enum.map fun p =>
      [natRepr (p.1 + 1),
       format_srt_timestamp p.2.start ++ " --> " ++ format_srt_timestamp (p.2.start + p.2.duration),
       p.2.text,
       ""]).flatten) = srtSpec entries := by
  rw [pyJoin_flatten _ _ (by intro b hb; simp at hb; obtain ⟨p, e, hpe⟩ := hb; simp [← hpe.2])]
  rw [List.map_map]
  unfold srtSpec
  congr 1
  apply List.map_congr_left
  intro p _
  simp only [Function.comp_apply, pyJoin, srtSpecBlock]
  apply str_eq_of_data
  simp [String.data_append]

lemma vtt_flatten_eq (entries : List CaptionEntry) :
    pyJoin "\n" ((entries.map fun e =>
      [format_vtt_timestamp e.start ++ " --> " ++ format_vtt_timestamp (e.start + e.duration),
       e.text,
       ""]).flatten) = vttBody entries := by
  rw [pyJoin_flatten _ _ (by intro b hb; simp at hb; obtain ⟨p, hp, hpe⟩ := hb; simp [← hpe])]
  rw [List.map_map]
  unfold vttBody
  congr 1
  apply List.map_congr_left
  intro e _
  simp only [Function.comp_apply, pyJoin, vttSpecBlock]
  apply str_eq_of_data
  simp [String.data_append]

lemma format_transcript_srt_eq (entries : List CaptionEntry) (b : Bool) :
    format_transcript entries "srt" b = .ok (srtSpec entries) := by
  unfold format_transcript
  rw [if_neg (by decide), if_neg (by decide), if_pos rfl]
  exact congrArg _ (srt_flatten_eq entries)

lemma format_transcript_vtt_eq (entries : List CaptionEntry) (b : Bool)
    (h : entries ≠ []) :
    format_transcript entries "vtt" b = .ok ("WEBVTT\n\n" ++ vttBody entries) := by
  unfold format_transcript
  rw [if_neg (by decide), if_neg (by decide), if_neg (by decide), if_pos rfl]
  refine congrArg _ ?_
  have hflat : (entries.map fun e =>
      [format_vtt_timestamp e.start ++ " --> " ++ format_vtt_timestamp (e.start + e.duration),
       e.text, ""]).flatten ≠ [] := by
    apply flatten_ne_nil
    · simpa using h
    · intro b hb; simp at hb; obtain ⟨p, hp, hpe⟩ := hb; simp [← hpe]
  rw [pyJoin_cons _ _ _ hflat, vtt_flatten_eq]
  apply str_eq_of_data
  simp [String.data_append]

lemma format_transcript_text_ts_eq (entries : List CaptionEntry) :
    format_transcript entries "text" true = .ok (textTsSpec entries) := by
  unfold format_transcript
  rw [if_pos rfl]
  show Except.ok _ = _
  refine congrArg _ ?_
  unfold textTsSpec
  congr 1
  apply List.map_congr_left
  intro e _
  simp only [format_timestamp, textTsSpecLine]
  apply str_eq_of_data
  simp [String.data_append]

lemma srtSpecBlock_hello : srtSpecBlock 1 helloEntry = "1\n00:00:00,000 --> 00:00:02,000\nHello\n" := by
  show natRepr 1 ++ "\n" ++
    (format_srt_timestamp (0 : ℚ) ++ " --> " ++ format_srt_timestamp ((0 : ℚ) + 2)) ++
    "\n" ++ "Hello" ++ "\n" = _
  rw [show ((0 : ℚ) + 2) = 2 by norm_num, srt_ts_0, srt_ts_2]
  decide

lemma srtSpecBlock_world : srtSpecBlock 2 worldEntry = "2\n00:00:02,000 --> 00:00:05,000\nWorld\n" := by
  show natRepr 2 ++ "\n" ++
    (format_srt_timestamp (2 : ℚ) ++ " --> " ++ format_srt_timestamp ((2 : ℚ) + 3)) ++
    "\n" ++ "World" ++ "\n" = _
  rw [show ((2 : ℚ) + 3) = 5 by norm_num, srt_ts_2, srt_ts_5]
  decide

lemma vttSpecBlock_hello : vttSpecBlock helloEntry = "00:00:00.000 --> 00:00:02.000\nHello\n" := by
  show format_vtt_timestamp (0 : ℚ) ++ " --> " ++ format_vtt_timestamp ((0 : ℚ) + 2) ++
    "\n" ++ "Hello" ++ "\n" = _
  rw [show ((0 : ℚ) + 2) = 2 by norm_num, vtt_ts_0, vtt_ts_2]
  decide

lemma vttSpecBlock_world : vttSpecBlock worldEntry = "00:00:02.000 --> 00:00:05.000\nWorld\n" := by
  show format_vtt_timestamp (2 : ℚ) ++ " --> " ++ format_vtt_timestamp ((2 : ℚ) + 3) ++
    "\n" ++ "World" ++ "\n" = _
  rw [show ((2 : ℚ) + 3) = 5 by norm_num, vtt_ts_2, vtt_ts_5]
  decide

lemma srtSpec_example :
    srtSpec [helloEntry, worldEntry] =
      "1\n00:00:00,000 --> 00:00:02,000\nHello\n\n2\n00:00:02,000 --> 00:00:05,000\nWorld\n" := by
  show pyJoin "\n" [srtSpecBlock 1 helloEntry, srtSpecBlock 2 worldEntry] = _
  rw [srtSpecBlock_hello, srtSpecBlock_world]
  decide

lemma vttBody_example :
    vttBody [helloEntry, worldEntry] =
      "00:00:00.000 --> 00:00:02.000\nHello\n\n00:00:02.000 --> 00:00:05.000\nWorld\n" := by
  show pyJoin "\n" [vttSpecBlock helloEntry, vttSpecBlock worldEntry] = _
  rw [vttSpecBlock_hello, vttSpecBlock_world]
  decide

/-- C2: the srt formatter emits, per entry in order, its 1-based sequence
number, the `start --> start+duration` timestamp line (comma-separated
milliseconds), the literal text and a blank line, blocks joined with
newlines; on the two example entries it produces exactly the expected
output. -/
theorem c2_srt_format :
    (∀ (entries : List CaptionEntry) (b : Bool),
      format_transcript entries "srt" b = .ok (srtSpec entries)) ∧
    format_transcript [helloEntry, worldEntry] "srt" false =
      .ok "1\n00:00:00,000 --> 00:00:02,000\nHello\n\n2\n00:00:02,000 --> 00:00:05,000\nWorld\n" := by
  refine ⟨format_transcript_srt_eq, ?_⟩
  rw [format_transcript_srt_eq, srtSpec_example]

/-- C3 counterexample: at the empty entry sequence the vtt output is
`"WEBVTT\n"`, not the header-line-plus-blank-line `"WEBVTT\n\n"` that the
claimed structure prescribes for every entry sequence. -/
theorem c3_counterexample :
    format_transcript [] "vtt" false = .ok "WEBVTT\n" ∧
    "WEBVTT\n" ≠ "WEBVTT\n\n" :=
  ⟨rfl, by decide⟩

/-- C3 amended: for every nonempty entry sequence the vtt output is the
header line `WEBVTT` followed by a blank line, then the SRT-structured blocks
without sequence numbers and with `.` as decimal separator; for the empty
sequence only `"WEBVTT\n"` is produced.  The example output is exact. -/
theorem c3_amended :
    (∀ (entries : List CaptionEntry) (b : Bool), entries ≠ [] →
      format_transcript entries "vtt" b = .ok ("WEBVTT\n\n" ++ vttBody entries)) ∧
    (∀ b : Bool, format_transcript [] "vtt" b = .ok "WEBVTT\n") ∧
    format_transcript [helloEntry, worldEntry] "vtt" false =
      .ok "WEBVTT\n\n00:00:00.000 --> 00:00:02.000\nHello\n\n00:00:02.000 --> 00:00:05.000\nWorld\n" := by
  refine ⟨fun entries b h => format_transcript_vtt_eq entries b h, fun b => rfl, ?_⟩
  rw [format_transcript_vtt_eq _ _ (by simp), vttBody_example]
  rfl

/-- C3 amended witness at the two example entries. -/
theorem c3_amended_witness :
    format_transcript [helloEntry, worldEntry] "vtt" true =
      .ok ("WEBVTT\n\n" ++ vttBody [helloEntry, worldEntry]) :=
  c3_amended.1 [helloEntry, worldEntry] true (by simp)

/-- C4: the text formatter with timestamps produces one `[HH:MM:SS] <text>`
line per entry (start truncated to whole seconds, floor-decomposed,
zero-padded 2-digit fields), lines joined by newline with no trailing
newline; exact on the example entries. -/
theorem c4_text_timestamps :
    (∀ entries : List CaptionEntry,
      format_transcript entries "text" true = .ok (textTsSpec entries)) ∧
    format_transcript [helloEntry, worldEntry] "text" true =
      .ok "[00:00:00] Hello\n[00:00:02] World" := by
  refine ⟨format_transcript_text_ts_eq, ?_⟩
  rfl

/-- C10: on the empty entry sequence the formatter yields `""` for srt and
for text-with-timestamps, `"[]"` for json, and exactly `"WEBVTT\n"` (header
newline kept, no blank line) for vtt. -/
theorem c10_empty_formats :
    format_transcript [] "srt" false = .ok "" ∧
    format_transcript [] "text" true = .ok "" ∧
    format_transcript [] "json" false = .ok "[]" ∧
    format_transcript [] "vtt" false = .ok "WEBVTT\n" :=
  ⟨rfl, rfl, rfl, rfl⟩

lemma eq_empty_iff_data (s : String) : s = "" ↔ s.data = [] :=
  ⟨fun h => by rw [h], fun h => str_eq_of_data h⟩

lemma append_ne_empty (p q : String) (hp : p ≠ "") : p ++ q ≠ "" := by
  intro h
  apply hp
  have hd : p.data ++ q.data = [] := by
    rw [← String.data_append, h]
  exact str_eq_of_data (List.append_eq_nil.mp hd).1

lemma adjustedOutputFile_some (p fmt : String) (hp : p ≠ "") :
    adjustedOutputFile (some p) fmt =
      some (if '.' ∈ p.data then p else p ++ get_default_extension fmt) := by
  simp only [adjustedOutputFile]
  by_cases hd : '.' ∈ p.data
  · rw [if_neg (fun hcon => hcon.2 hd), if_pos hd]
  · rw [if_pos ⟨hp, hd⟩, if_neg hd]

lemma tgt_ne_empty (p fmt : String) (hp : p ≠ "") :
    (if '.' ∈ p.data then p else p ++ get_default_extension fmt) ≠ "" := by
  by_cases hd : '.' ∈ p.data
  · rw [if_pos hd]; exact hp
  · rw [if_neg hd]; exact append_ne_empty _ _ hp

lemma mainRun_success_trace (args : Args) (prov : Provider) (v : String)
    (transcript : List CaptionEntry) (formatted p : String)
    (hid : get_video_id args.video_id = .ok v)
    (hf : prov.fetch = .ok transcript)
    (hfmt : format_transcript transcript args.format args.add_timestamps = .ok formatted)
    (hclip : prov.clip = .ok ())
    (hwrite : prov.write = .ok ())
    (hout : args.output_file = some p) (hp : p ≠ "") :
    mainRun args prov =
      (Ev.fetchAttempt ::
        ((if args.clipboard then [Ev.clip formatted, Ev.out "Transcript copied to clipboard"]
          else []) ++
         ([Ev.fileWrite (if '.' ∈ p.data then p else p ++ get_default_extension args.format)
             formatted,
           Ev.out ("Transcript saved to " ++
             (if '.' ∈ p.data then p else p ++ get_default_extension args.format))] ++
          (if args.verbose then echoBlock formatted else [])) ++
         (if args.verbose ∧ args.clipboard then echoBlock formatted else [])), 0) := by
  have htgt := tgt_ne_empty p args.format hp
  simp only [mainRun, hid, hf, hfmt, hout, adjustedOutputFile_some p args.format hp,
    copy_to_clipboard, hclip, save_to_file, hwrite]
  cases hcb : args.clipboard <;> cases hvb : args.verbose <;>
    simp [htgt, echoBlock]

/-- C1 counterexample: with clipboard, verbose and an output file all set
(and every side effect succeeding), the dispatcher echoes the formatted
content twice — once from the file branch and once from the clipboard-verbose
echo — so the claimed "echoed exactly once" fails on this invocation. -/
theorem c1_counterexample :
    ¬ ((mainRun c1Args c1Prov).1.count (Ev.out "[00:00:00] Hello") = 1) := by
  decide

/-- C1 amended: the extra clipboard-verbose echo is emitted whenever both the
clipboard flag and the verbose flag are set, regardless of whether a file
path was given; when a file path is also given the content is echoed twice
(once by the file branch, once by the trailing clipboard-verbose echo). -/
theorem c1_amended (args : Args) (prov : Provider) (v : String)
    (transcript : List CaptionEntry) (formatted p : String)
    (hid : get_video_id args.video_id = .ok v)
    (hf : prov.fetch = .ok transcript)
    (hfmt : format_transcript transcript args.format args.add_timestamps = .ok formatted)
    (hclip : prov.clip = .ok ())
    (hwrite : prov.write = .ok ())
    (hout : args.output_file = some p) (hp : p ≠ "")
    (hcb : args.clipboard = true) (hvb : args.verbose = true) :
    mainRun args prov =
      (Ev.fetchAttempt ::
        ([Ev.clip formatted, Ev.out "Transcript copied to clipboard"] ++
         ([Ev.fileWrite (if '.' ∈ p.data then p else p ++ get_default_extension args.format)
             formatted,
           Ev.out ("Transcript saved to " ++
             (if '.' ∈ p.data then p else p ++ get_default_extension args.format))] ++
          echoBlock formatted) ++
         echoBlock formatted), 0) := by
  rw [mainRun_success_trace args prov v transcript formatted p hid hf hfmt hclip hwrite hout hp]
  rw [hcb, hvb]
  simp

/-- C1 amended witness: the concrete clipboard-verbose-file invocation. -/
theorem c1_amended_witness :
    mainRun c1Args c1Prov =
      (Ev.fetchAttempt ::
        ([Ev.clip "[00:00:00] Hello", Ev.out "Transcript copied to clipboard"] ++
         ([Ev.fileWrite "o.txt" "[00:00:00] Hello",
           Ev.out ("Transcript saved to " ++ "o.txt")] ++
          echoBlock "[00:00:00] Hello") ++
         echoBlock "[00:00:00] Hello"), 0) := by
  have h := c1_amended c1Args c1Prov "dQw4w9WgXcQ" [helloEntry] "[00:00:00] Hello" "o.txt"
    rfl rfl rfl rfl rfl rfl (by decide) rfl rfl
  simpa using h

/-- C7: whenever the transcript fetch fails, the error message goes to the
error stream, the process exits with code 1 after exactly one fetch attempt,
and no file write, clipboard copy, or console output of content happens. -/
theorem c7_fetch_failure (args : Args) (prov : Provider) (v msg : String)
    (hid : get_video_id args.video_id = .ok v)
    (hf : prov.fetch = .error msg) :
    mainRun args prov = ([Ev.fetchAttempt, Ev.err ("Error fetching transcript: " ++ msg)], 1) ∧
    (mainRun args prov).2 = 1 ∧
    (mainRun args prov).1.count Ev.fetchAttempt = 1 ∧
    (∀ name content, Ev.fileWrite name content ∉ (mainRun args prov).1) ∧
    (∀ content, Ev.clip content ∉ (mainRun args prov).1) ∧
    (∀ content, Ev.out content ∉ (mainRun args prov).1) ∧
    Ev.err ("Error fetching transcript: " ++ msg) ∈ (mainRun args prov).1 := by
  have htr : mainRun args prov =
      ([Ev.fetchAttempt, Ev.err ("Error fetching transcript: " ++ msg)], 1) := by
    simp only [mainRun, hid, hf]
  refine ⟨htr, by rw [htr], by rw [htr]; rfl, ?_, ?_, ?_, by rw [htr]; simp⟩
  · intro name content; rw [htr]; simp
  · intro content; rw [htr]; simp
  · intro content; rw [htr]; simp

/-- C7 witness: a concrete failing fetch. -/
theorem c7_fetch_failure_witness :
    mainRun ⟨"dQw4w9WgXcQ", some "o.txt", "text", false, false, true⟩
        ⟨.error "no captions", .ok (), .ok ()⟩ =
      ([Ev.fetchAttempt, Ev.err ("Error fetching transcript: " ++ "no captions")], 1) :=
  (c7_fetch_failure ⟨"dQw4w9WgXcQ", some "o.txt", "text", false, false, true⟩
    ⟨.error "no captions", .ok (), .ok ()⟩ "dQw4w9WgXcQ" "no captions" rfl rfl).1

/-- C9: a dot-free output path gets the active format's default extension
appended (`.txt`, `.json`, `.srt`, `.vtt`); a path containing a `.` anywhere
is left unmodified for every format; `"clip"` with srt becomes `"clip.srt"`,
`"clip.out"` stays; and a successful invocation writes the file under the
adjusted name. -/
theorem c9_output_extension :
    (∀ p fmt : String, p ≠ "" → '.' ∉ p.data →
      adjustedOutputFile (some p) fmt = some (p ++ get_default_extension fmt)) ∧
    (∀ p fmt : String, '.' ∈ p.data → adjustedOutputFile (some p) fmt = some p) ∧
    (get_default_extension "text" = ".txt" ∧ get_default_extension "json" = ".json" ∧
     get_default_extension "srt" = ".srt" ∧ get_default_extension "vtt" = ".vtt") ∧
    adjustedOutputFile (some "clip") "srt" = some "clip.srt" ∧
    (∀ fmt, fmt = "text" ∨ fmt = "json" ∨ fmt = "srt" ∨ fmt = "vtt" →
      adjustedOutputFile (some "clip.out") fmt = some "clip.out") ∧
    (∀ (args : Args) (prov : Provider) (v : String) (transcript : List CaptionEntry)
       (formatted p : String),
      get_video_id args.video_id = .ok v → prov.fetch = .ok transcript →
      format_transcript transcript args.format args.add_timestamps = .ok formatted →
      prov.clip = .ok () → prov.write = .ok () →
      args.output_file = some p → p ≠ "" →
      Ev.fileWrite (if '.' ∈ p.data then p else p ++ get_default_extension args.format)
        formatted ∈ (mainRun args prov).1) := by
  refine ⟨?_, ?_, ⟨rfl, rfl, rfl, rfl⟩, ?_, ?_, ?_⟩
  · intro p fmt hp hd
    rw [adjustedOutputFile_some p fmt hp, if_neg hd]
  · intro p fmt hd
    have hp : p ≠ "" := by
      intro h
      rw [h] at hd
      simp at hd
    rw [adjustedOutputFile_some p fmt hp, if_pos hd]
  · simp only [adjustedOutputFile]
    rw [if_pos ⟨by decide, by decide⟩]
    rfl
  · intro fmt _
    simp only [adjustedOutputFile]
    rw [if_neg (fun hcon => hcon.2 (by decide))]
  · intro args prov v transcript formatted p hid hf hfmt hclip hwrite hout hp
    rw [mainRun_success_trace args prov v transcript formatted p hid hf hfmt hclip hwrite hout hp]
    simp

/-- C9 witness: concrete invocation writing to `"clip"` with srt format. -/
theorem c9_output_extension_witness :
    adjustedOutputFile (some "clip") "srt" = some ("clip" ++ get_default_extension "srt") ∧
    Ev.fileWrite (if '.' ∈ "clip".data then "clip" else "clip" ++ get_default_extension "srt")
        "" ∈
      (mainRun ⟨"dQw4w9WgXcQ", some "clip", "srt", false, false, false⟩
        ⟨.ok [], .ok (), .ok ()⟩).1 :=
  ⟨c9_output_extension.1 "clip" "srt" (by decide) (by decide),
   c9_output_extension.2.2.2.2.2 ⟨"dQw4w9WgXcQ", some "clip", "srt", false, false, false⟩
     ⟨.ok [], .ok (), .ok ()⟩ "dQw4w9WgXcQ" [] "" "clip" rfl rfl rfl rfl rfl rfl (by decide)⟩

lemma isIdChar_ne_slash {c : Char} (h : isIdChar c = true) : c ≠ '/' := by
  intro heq; subst heq; exact absurd h (by decide)

lemma isIdChar_ne_eq {c : Char} (h : isIdChar c = true) : c ≠ '=' := by
  intro heq; subst heq; exact absurd h (by decide)

lemma searchP1_cons_of_none {c : Char} {cs : List Char} (h : matchP1At (c :: cs) = none) :
    searchP1 (c :: cs) = searchP1 cs := by
  simp [searchP1, h]

lemma searchP1_all_id (l : List Char) (hall : l.all isIdChar = true) : searchP1 l = none := by
  induction l with
  | nil => rfl
  | cons c cs ih =>
    rw [List.all_cons, Bool.and_eq_true] at hall
    have hnone : matchP1At (c :: cs) = none := by
      cases cs with
      | nil => simp [matchP1At, take11, isIdChar_ne_slash hall.1]
      | cons d ds =>
        have hd : isIdChar d = true := by
          have := hall.2
          rw [List.all_cons, Bool.and_eq_true] at this
          exact this.1
        simp [matchP1At, isIdChar_ne_slash hall.1, isIdChar_ne_eq hd]
    rw [searchP1_cons_of_none hnone]
    exact ih hall.2

lemma searchP1_url_watch (l : List Char) (h11 : l.length = 11) (hall : l.all isIdChar = true) :
    searchP1 ("youtube.com/watch?v=".data ++ l) = some l := by
  show searchP1 (('y' :: 'o' :: 'u' :: 't' :: 'u' :: 'b' :: 'e' :: '.' :: 'c' :: 'o' :: 'm' :: '/' ::
    'w' :: 'a' :: 't' :: 'c' :: 'h' :: '?' :: 'v' :: '=' :: []) ++ l) = some l
  simp only [List.cons_append, List.nil_append]
  simp [searchP1, matchP1At, take11, h11, List.take_of_length_le, h11.ge, hall,
    show isIdChar '?' = false from by decide]

lemma searchP1_url_short (l : List Char) (h11 : l.length = 11) (hall : l.all isIdChar = true) :
    searchP1 ("youtu.be/".data ++ l) = some l := by
  obtain ⟨c, cs, rfl⟩ : ∃ c cs, l = c :: cs := by
    cases l with
    | nil => simp at h11
    | cons c cs => exact ⟨c, cs, rfl⟩
  have h10 : cs.length = 10 := by simpa using h11
  show searchP1 (('y' :: 'o' :: 'u' :: 't' :: 'u' :: '.' :: 'b' :: 'e' :: '/' :: []) ++ (c :: cs)) =
    some (c :: cs)
  simp only [List.cons_append, List.nil_append]
  rw [List.all_cons, Bool.and_eq_true] at hall
  simp [searchP1, matchP1At, take11, h10, List.take_of_length_le, h10.ge, List.all_cons]
  rw [if_pos ⟨hall.1, by simpa [List.all_eq_true] using hall.2⟩]

lemma matchP2_all_id (l : List Char) (h11 : l.length = 11) (hall : l.all isIdChar = true) :
    matchP2 l = some l := by
  unfold matchP2
  rw [if_pos ⟨h11, hall⟩]

/-- C6: the ID extractor tries the URL pattern before the bare-id pattern and
the first match wins; every valid 11-character identifier embedded in the
supported URL shapes (youtube.com/watch?v=ID, youtu.be/ID) is returned
exactly, a bare identifier is returned as-is, and when neither pattern
matches the extractor fails with the invalid-identifier error and the driver
exits with code 1. -/
theorem c6_video_id_extraction :
    (∀ id : String, id.data.length = 11 → id.data.all isIdChar = true →
      get_video_id ("youtube.com/watch?v=" ++ id) = .ok id ∧
      get_video_id ("youtu.be/" ++ id) = .ok id ∧
      get_video_id id = .ok id) ∧
    (∀ (s : String) (g : List Char), searchP1 s.data = some g → get_video_id s = .ok ⟨g⟩) ∧
    (∀ s : String, searchP1 s.data = none → matchP2 s.data = none →
      get_video_id s = .error "Invalid YouTube URL or video ID" ∧
      ∀ (ofile : Option String) (fmt : String) (ats vb cb : Bool) (prov : Provider),
        mainRun ⟨s, ofile, fmt, ats, vb, cb⟩ prov =
          ([Ev.err ("Error: " ++ "Invalid YouTube URL or video ID")], 1)) := by
  refine ⟨?_, ?_, ?_⟩
  · intro id h11 hall
    refine ⟨?_, ?_, ?_⟩
    · unfold get_video_id
      rw [String.data_append, searchP1_url_watch id.data h11 hall]
    · unfold get_video_id
      rw [String.data_append, searchP1_url_short id.data h11 hall]
    · unfold get_video_id
      rw [searchP1_all_id id.data hall, matchP2_all_id id.data h11 hall]
  · intro s g hs
    unfold get_video_id
    rw [hs]
  · intro s h1 h2
    have hgv : get_video_id s = .error "Invalid YouTube URL or video ID" := by
      unfold get_video_id
      rw [h1, h2]
    exact ⟨hgv, fun ofile fmt ats vb cb prov => by simp only [mainRun, hgv]⟩

/-- C6 witness: the concrete identifier dQw4w9WgXcQ through both URL shapes
and bare, and the failing input "nope". -/
theorem c6_video_id_extraction_witness :
    get_video_id ("youtube.com/watch?v=" ++ "dQw4w9WgXcQ") = .ok "dQw4w9WgXcQ" ∧
    get_video_id ("youtu.be/" ++ "dQw4w9WgXcQ") = .ok "dQw4w9WgXcQ" ∧
    get_video_id "dQw4w9WgXcQ" = .ok "dQw4w9WgXcQ" ∧
    get_video_id "nope" = .error "Invalid YouTube URL or video ID" ∧
    mainRun ⟨"nope", none, "text", false, false, false⟩ ⟨.ok [], .ok (), .ok ()⟩ =
      ([Ev.err ("Error: " ++ "Invalid YouTube URL or video ID")], 1) := by
  obtain ⟨hu, hb⟩ := c6_video_id_extraction.1 "dQw4w9WgXcQ" (by decide) (by decide)
  obtain ⟨he, hm⟩ := c6_video_id_extraction.2.2 "nope" (by decide) (by decide)
  exact ⟨hu, hb.1, hb.2, he, hm none "text" false false false ⟨.ok [], .ok (), .ok ()⟩⟩

lemma isDig_digitChar (d : ℕ) (h : d < 10) : isDig (Char.ofNat (48 + d)) = true := by
  interval_cases d <;> decide

lemma digVal_digitChar (d : ℕ) (h : d < 10) : digVal (Char.ofNat (48 + d)) = d := by
  interval_cases d <;> decide

lemma natReprAux_all_dig : ∀ f n, n ≤ f → ∀ c ∈ natReprAux f n, isDig c = true := by
  intro f
  induction f with
  | zero => intro n _ c hc; simp [natReprAux] at hc
  | succ f ih =>
    intro n hn c hc
    by_cases h0 : n = 0
    · simp [natReprAux, h0] at hc
    · rw [natReprAux, if_neg h0] at hc
      rcases List.mem_append.mp hc with h | h
      · exact ih (n / 10) (by omega) c h
      · rw [List.mem_singleton] at h
        subst h
        exact isDig_digitChar (n % 10) (Nat.mod_lt n (by norm_num))

lemma natChars_all_dig (n : ℕ) : ∀ c ∈ natChars n, isDig c = true := by
  intro c hc
  unfold natChars at hc
  by_cases h0 : n = 0
  · rw [if_pos h0, List.mem_singleton] at hc
    subst hc; decide
  · rw [if_neg h0] at hc
    exact natReprAux_all_dig n n le_rfl c hc

lemma natChars_ne_nil (n : ℕ) : natChars n ≠ [] := by
  unfold natChars
  by_cases h0 : n = 0
  · simp [h0]
  · rw [if_neg h0]
    cases n with
    | zero => exact absurd rfl h0
    | succ m =>
      rw [natReprAux, if_neg h0]
      simp

lemma natReprAux_foldl : ∀ f n acc, n ≤ f →
    (natReprAux f n).foldl (fun a c => 10 * a + digVal c) acc =
      acc * 10 ^ (natReprAux f n).length + n := by
  intro f
  induction f with
  | zero =>
    intro n acc hn
    have : n = 0 := by omega
    simp [natReprAux, this]
  | succ f ih =>
    intro n acc hn
    by_cases h0 : n = 0
    · simp [natReprAux, h0]
    · rw [natReprAux, if_neg h0, List.foldl_append, List.length_append]
      rw [ih (n / 10) acc (by omega)]
      simp only [List.foldl_cons, List.foldl_nil, List.length_singleton]
      rw [digVal_digitChar (n % 10) (Nat.mod_lt n (by norm_num))]
      rw [pow_succ]
      have := Nat.div_add_mod n 10
      ring_nf
      omega

lemma natChars_foldl (n : ℕ) :
    (natChars n).foldl (fun a c => 10 * a + digVal c) 0 = n := by
  unfold natChars
  by_cases h0 : n = 0
  · simp [h0, digVal]
  · rw [if_neg h0, natReprAux_foldl n n 0 le_rfl]
    simp

lemma natReprAux_length_le : ∀ f n k, n ≤ f → n < 10 ^ k → (natReprAux f n).length ≤ k := by
  intro f
  induction f with
  | zero => intro n k _ _; simp [natReprAux]
  | succ f ih =>
    intro n k hn hk
    by_cases h0 : n = 0
    · simp [natReprAux, h0]
    · rw [natReprAux, if_neg h0, List.length_append]
      cases k with
      | zero => omega
      | succ k' =>
        have hdiv : n / 10 < 10 ^ k' := by
          rw [pow_succ] at hk
          omega
        have := ih (n / 10) k' (by omega) hdiv
        simp only [List.length_singleton]
        omega

lemma natChars_length_le (n k : ℕ) (h : n < 10 ^ k) (hk : 0 < k) :
    (natChars n).length ≤ k := by
  unfold natChars
  by_cases h0 : n = 0
  · simp [h0]; omega
  · rw [if_neg h0]
    exact natReprAux_length_le n n k le_rfl h

lemma parseNatAux_digits : ∀ (dl : List Char) (rest : List Char) (acc k : ℕ),
    (∀ c ∈ dl, isDig c = true) →
    parseNatAux (dl ++ rest) acc k =
      parseNatAux rest (dl.foldl (fun a c => 10 * a + digVal c) acc) (k + dl.length) := by
  intro dl
  induction dl with
  | nil => intro rest acc k _; simp
  | cons c cs ih =>
    intro rest acc k h
    rw [List.cons_append, parseNatAux, if_pos (h c (by simp))]
    rw [ih rest (10 * acc + digVal c) (k + 1) (fun d hd => h d (by simp [hd]))]
    simp only [List.foldl_cons, List.length_cons]
    congr 1
    omega

lemma parseNatAux_nondig (c : Char) (cs : List Char) (acc k : ℕ) (h : isDig c = false) :
    parseNatAux (c :: cs) acc k = (acc, k, c :: cs) := by
  rw [parseNatAux, if_neg (by simp [h])]

lemma parseNatL_run (dl rest : List Char) (v : ℕ)
    (hdl : dl ≠ []) (hdig : ∀ c ∈ dl, isDig c = true)
    (hval : dl.foldl (fun a c => 10 * a + digVal c) 0 = v)
    (hrest : rest = [] ∨ ∃ c cs, rest = c :: cs ∧ isDig c = false) :
    parseNatL (dl ++ rest) = some (v, dl.length, rest) := by
  obtain ⟨m, hm⟩ : ∃ m, dl.length = m + 1 := by
    cases dl with
    | nil => exact absurd rfl hdl
    | cons c cs => exact ⟨cs.length, rfl⟩
  unfold parseNatL
  rw [parseNatAux_digits dl rest 0 0 hdig, hval]
  have hstop : parseNatAux rest v (0 + dl.length) = (v, 0 + dl.length, rest) := by
    rcases hrest with h | ⟨c, cs, rfl, hc⟩
    · rw [h]; rfl
    · exact parseNatAux_nondig c cs v _ hc
  rw [hstop]
  simp only [Nat.zero_add, hm]

lemma replicate_zeros_foldl (z : ℕ) :
    (List.replicate z '0').foldl (fun a c => 10 * a + digVal c) 0 = 0 := by
  induction z with
  | zero => rfl
  | succ z ih => rw [List.replicate_succ, List.foldl_cons]; simpa [digVal] using ih

lemma padN_digits (w n : ℕ) : ∀ c ∈ (padN w n).data, isDig c = true := by
  intro c hc
  unfold padN at hc
  rw [data_mk, List.mem_append] at hc
  rcases hc with h | h
  · rw [List.eq_of_mem_replicate h]; decide
  · exact natChars_all_dig n c h

lemma padN_foldl (w n : ℕ) :
    (padN w n).data.foldl (fun a c => 10 * a + digVal c) 0 = n := by
  unfold padN
  rw [data_mk, List.foldl_append, replicate_zeros_foldl]
  exact natChars_foldl n

lemma padN_ne_nil (w n : ℕ) : (padN w n).data ≠ [] := by
  unfold padN
  rw [data_mk]
  intro h
  rcases List.append_eq_nil.mp h with ⟨-, h2⟩
  exact natChars_ne_nil n h2

lemma padN_length (w n : ℕ) (h : (natChars n).length ≤ w) : (padN w n).data.length = w := by
  unfold padN
  rw [data_mk, List.length_append, List.length_replicate]
  omega

lemma intChars_natCast (n : ℕ) : intChars ((n : ℕ) : ℤ) = natChars n := by
  unfold intChars
  rw [if_neg (by omega), Int.natAbs_ofNat]

lemma pad2_data_natCast (n : ℕ) :
    (pad2 ((n : ℕ) : ℤ)).data =
      (if (natChars n).length < 2 then '0' :: natChars n else natChars n) := by
  unfold pad2
  rw [data_mk, intChars_natCast]

lemma pad2_digits (n : ℕ) : ∀ c ∈ (pad2 ((n : ℕ) : ℤ)).data, isDig c = true := by
  intro c hc
  rw [pad2_data_natCast] at hc
  split at hc
  · rcases List.mem_cons.mp hc with h | h
    · subst h; decide
    · exact natChars_all_dig n c h
  · exact natChars_all_dig n c hc

lemma pad2_foldl (n : ℕ) :
    (pad2 ((n : ℕ) : ℤ)).data.foldl (fun a c => 10 * a + digVal c) 0 = n := by
  rw [pad2_data_natCast]
  split
  · rw [List.foldl_cons]
    simpa [digVal] using natChars_foldl n
  · exact natChars_foldl n

lemma pad2_ne_nil (n : ℕ) : (pad2 ((n : ℕ) : ℤ)).data ≠ [] := by
  rw [pad2_data_natCast]
  split
  · simp
  · exact natChars_ne_nil n

lemma parseTsWith_render (sep : Char) (hsep : isDig sep = false) (A B C D : ℕ) (hD : D < 1000) :
    parseTsWith sep (pad2 (A : ℤ) ++ ":" ++ pad2 (B : ℤ) ++ ":" ++
        (pad2 (C : ℤ) ++ String.singleton sep ++ padN 3 D)) =
      some ((A : ℚ) * 3600 + (B : ℚ) * 60 + (C : ℚ) + (D : ℚ) / 10 ^ 3) := by
  have hdata : (pad2 (A : ℤ) ++ ":" ++ pad2 (B : ℤ) ++ ":" ++
      (pad2 (C : ℤ) ++ String.singleton sep ++ padN 3 D)).data =
      (pad2 (A : ℤ)).data ++ (':' :: ((pad2 (B : ℤ)).data ++
        (':' :: ((pad2 (C : ℤ)).data ++ (sep :: (padN 3 D).data))))) := by
    simp [String.data_append, String.singleton, data_mk]
  unfold parseTsWith
  rw [hdata]
  rw [parseNatL_run _ _ A (pad2_ne_nil A) (pad2_digits A) (pad2_foldl A)
    (Or.inr ⟨':', _, rfl, by decide⟩)]
  simp only []
  rw [parseNatL_run _ _ B (pad2_ne_nil B) (pad2_digits B) (pad2_foldl B)
    (Or.inr ⟨':', _, rfl, by decide⟩)]
  simp only []
  rw [parseNatL_run _ _ C (pad2_ne_nil C) (pad2_digits C) (pad2_foldl C)
    (Or.inr ⟨sep, _, rfl, hsep⟩)]
  simp only []
  rw [if_pos trivial]
  rw [show (padN 3 D).data = (padN 3 D).data ++ [] from (List.append_nil _).symm]
  rw [parseNatL_run _ _ D (padN_ne_nil 3 D) (padN_digits 3 D) (padN_foldl 3 D) (Or.inl rfl)]
  rw [padN_length 3 D (natChars_length_le D 3 (by omega) (by norm_num))]

lemma ratFloor_nonneg (q : ℚ) (h : 0 ≤ q) : 0 ≤ ratFloor q := by
  rw [ratFloor_eq]
  exact Int.floor_nonneg.mpr h

lemma pyMod_nonneg (x m : ℚ) (hm : 0 < m) : 0 ≤ pyMod x m := by
  unfold pyMod
  rw [ratFloor_eq]
  have h1 : (⌊x / m⌋ : ℚ) ≤ x / m := Int.floor_le _
  have h2 : m * (⌊x / m⌋ : ℚ) ≤ m * (x / m) := by
    exact mul_le_mul_of_nonneg_left h1 hm.le
  rw [mul_comm m (x / m), div_mul_cancel₀ x hm.ne'] at h2
  linarith

lemma pyMod_lt (x m : ℚ) (hm : 0 < m) : pyMod x m < m := by
  unfold pyMod
  rw [ratFloor_eq]
  have h1 : x / m < (⌊x / m⌋ : ℚ) + 1 := Int.lt_floor_add_one _
  have h2 : m * (x / m) < m * ((⌊x / m⌋ : ℚ) + 1) := by
    exact mul_lt_mul_of_pos_left h1 hm
  rw [mul_comm m (x / m), div_mul_cancel₀ x hm.ne'] at h2
  nlinarith

lemma rhe_eq (q : ℚ) :
    roundHalfEven q =
      if q - (⌊q⌋ : ℚ) < 1 / 2 then ⌊q⌋
      else if 1 / 2 < q - (⌊q⌋ : ℚ) then ⌊q⌋ + 1
      else if ⌊q⌋ % 2 = 0 then ⌊q⌋ else ⌊q⌋ + 1 := by
  simp only [roundHalfEven, ratFloor_eq]

lemma rhe_nonneg (q : ℚ) (h : 0 ≤ q) : 0 ≤ roundHalfEven q := by
  rw [rhe_eq]
  have h1 : 0 ≤ ⌊q⌋ := Int.floor_nonneg.mpr h
  split_ifs <;> omega

lemma rhe_bound (q : ℚ) : |(roundHalfEven q : ℚ) - q| ≤ 1 / 2 := by
  rw [rhe_eq]
  have h1 : (⌊q⌋ : ℚ) ≤ q := Int.floor_le q
  have h2 : q < (⌊q⌋ : ℚ) + 1 := Int.lt_floor_add_one q
  split_ifs with hc1 hc2 hc3 <;> rw [abs_le] <;> constructor <;> push_cast <;> linarith

lemma microQuant_bound (t : ℚ) : |microQuant t - t| ≤ 1 / 2000000 := by
  unfold microQuant
  have h := rhe_bound (1000000 * t)
  have : (roundHalfEven (1000000 * t) : ℚ) / 1000000 - t =
      ((roundHalfEven (1000000 * t) : ℚ) - 1000000 * t) / 1000000 := by
    field_simp
  rw [this, abs_div]
  rw [show |(1000000 : ℚ)| = 1000000 by norm_num]
  rw [div_le_div_iff₀ (by norm_num) (by norm_num)]
  nlinarith [h]

lemma microQuant_nonneg (t : ℚ) (h : 0 ≤ t) : 0 ≤ microQuant t := by
  unfold microQuant
  have := rhe_nonneg (1000000 * t) (by positivity)
  positivity

lemma cascade (t : ℚ) :
    (ratFloor (t / 3600) : ℚ) * 3600 + (ratFloor (pyMod t 3600 / 60) : ℚ) * 60 + pyMod t 60 = t := by
  rw [ratFloor_eq, ratFloor_eq]
  unfold pyMod
  rw [ratFloor_eq, ratFloor_eq]
  have hkey : ⌊(t - 3600 * (⌊t / 3600⌋ : ℚ)) / 60⌋ = ⌊t / 60⌋ - 60 * ⌊t / 3600⌋ := by
    have : (t - 3600 * (⌊t / 3600⌋ : ℚ)) / 60 = t / 60 - ((60 * ⌊t / 3600⌋ : ℤ) : ℚ) := by
      push_cast
      ring
    rw [this, Int.floor_sub_int]
  rw [hkey]
  push_cast
  ring

lemma parse_render_core (sep : Char) (hsep : isDig sep = false) (t : ℚ) (ht : 0 ≤ t) :
    ∃ v, parseTsWith sep
      (pad2 (ratFloor (microQuant t / 3600)) ++ ":" ++
        pad2 (ratFloor (pyMod (microQuant t) 3600 / 60)) ++ ":" ++
        fmtSec sep (pyMod (microQuant t) 60)) = some v ∧ |v - t| ≤ 1 / 1000 := by
  have ht' : 0 ≤ microQuant t := microQuant_nonneg t ht
  set t' := microQuant t with htdef
  set A := ratFloor (t' / 3600) with hAdef
  set B := ratFloor (pyMod t' 3600 / 60) with hBdef
  set s := pyMod t' 60 with hsdef
  have hA : 0 ≤ A := ratFloor_nonneg _ (by positivity)
  have hB : 0 ≤ B := ratFloor_nonneg _
    (div_nonneg (pyMod_nonneg _ _ (by norm_num)) (by norm_num))
  have hs0 : 0 ≤ s := pyMod_nonneg _ _ (by norm_num)
  set m := (roundHalfEven (1000 * s)).toNat with hmdef
  have hm : ((m : ℕ) : ℤ) = roundHalfEven (1000 * s) :=
    Int.toNat_of_nonneg (rhe_nonneg _ (by positivity))
  have hfs : fmtSec sep s =
      pad2 ((m / 1000 : ℕ) : ℤ) ++ String.singleton sep ++ padN 3 (m % 1000) := by
    simp only [fmtSec]
  have hAt : A = ((A.toNat : ℕ) : ℤ) := (Int.toNat_of_nonneg hA).symm
  have hBt : B = ((B.toNat : ℕ) : ℤ) := (Int.toNat_of_nonneg hB).symm
  rw [hfs, hAt, hBt]
  refine ⟨_, parseTsWith_render sep hsep A.toNat B.toNat (m / 1000) (m % 1000)
    (Nat.mod_lt _ (by norm_num)), ?_⟩
  have hAq : ((A.toNat : ℕ) : ℚ) = (A : ℚ) := by exact_mod_cast congrArg Int.cast hAt.symm
  have hBq : ((B.toNat : ℕ) : ℚ) = (B : ℚ) := by exact_mod_cast congrArg Int.cast hBt.symm
  have hrb : |(m : ℚ) - 1000 * s| ≤ 1 / 2 := by
    have h := rhe_bound (1000 * s)
    rwa [← hm, Int.cast_natCast] at h
  have hsplit : ((m / 1000 : ℕ) : ℚ) + ((m % 1000 : ℕ) : ℚ) / 10 ^ 3 = (m : ℚ) / 1000 := by
    have h : (1000 * (m / 1000) + m % 1000 : ℕ) = m := Nat.div_add_mod m 1000
    have h2 : (1000 : ℚ) * ((m / 1000 : ℕ) : ℚ) + ((m % 1000 : ℕ) : ℚ) = (m : ℚ) := by
      exact_mod_cast congrArg (Nat.cast : ℕ → ℚ) h
    field_simp
    linarith
  have hcas : (A : ℚ) * 3600 + (B : ℚ) * 60 + s = t' := cascade t'
  have hmt : |t' - t| ≤ 1 / 2000000 := microQuant_bound t
  have h1 : |(m : ℚ) / 1000 - s| ≤ 1 / 2000 := by
    rw [show (m : ℚ) / 1000 - s = ((m : ℚ) - 1000 * s) / 1000 by ring, abs_div,
      show |(1000 : ℚ)| = 1000 by norm_num, div_le_div_iff₀ (by norm_num) (by norm_num)]
    linarith
  have hE : ((A.toNat : ℕ) : ℚ) * 3600 + ((B.toNat : ℕ) : ℚ) * 60 + ((m / 1000 : ℕ) : ℚ) +
      ((m % 1000 : ℕ) : ℚ) / 10 ^ 3 - t = ((m : ℚ) / 1000 - s) + (t' - t) := by
    rw [hAq, hBq]
    linarith
  rw [hE]
  calc |((m : ℚ) / 1000 - s) + (t' - t)| ≤ |(m : ℚ) / 1000 - s| + |t' - t| := abs_add _ _
    _ ≤ 1 / 2000 + 1 / 2000000 := add_le_add h1 hmt
    _ ≤ 1 / 1000 := by norm_num

lemma parse_format_srt (t : ℚ) (ht : 0 ≤ t) :
    ∃ v, parseTsWith ',' (format_srt_timestamp t) = some v ∧ |v - t| ≤ 1 / 1000 := by
  have h := parse_render_core ',' (by decide) t ht
  simpa only [format_srt_timestamp] using h

lemma parse_format_vtt (t : ℚ) (ht : 0 ≤ t) :
    ∃ v, parseTsWith '.' (format_vtt_timestamp t) = some v ∧ |v - t| ≤ 1 / 1000 := by
  have h := parse_render_core '.' (by decide) t ht
  simpa only [format_vtt_timestamp] using h

lemma srt_numbers_pairwise (entries : List CaptionEntry) :
    List.Pairwise (· < ·) (entries.enum.map fun p => p.1 + 1) := by
  have h : (entries.enum.map fun p => p.1 + 1) =
      (entries.enum.map Prod.fst).map (fun n => n + 1) := by
    rw [List.map_map]; rfl
  rw [h, List.enum_map_fst, List.pairwise_map]
  exact (List.pairwise_lt_range _).imp (fun hab => by omega)

/-- C8: re-parsing the SRT/VTT start and end timestamps emitted for an entry
with nonnegative start and duration (interpreting `HH:MM:SS,mmm` resp.
`HH:MM:SS.mmm` as seconds) recovers start and start+duration to within 1ms,
and the per-entry SRT sequence numbers are strictly increasing. -/
theorem c8_timestamp_roundtrip :
    (∀ start duration : ℚ, 0 ≤ start → 0 ≤ duration →
      (∃ v, parseTsWith ',' (format_srt_timestamp start) = some v ∧ |v - start| ≤ 1 / 1000) ∧
      (∃ v, parseTsWith ',' (format_srt_timestamp (start + duration)) = some v ∧
        |v - (start + duration)| ≤ 1 / 1000) ∧
      (∃ v, parseTsWith '.' (format_vtt_timestamp start) = some v ∧ |v - start| ≤ 1 / 1000) ∧
      (∃ v, parseTsWith '.' (format_vtt_timestamp (start + duration)) = some v ∧
        |v - (start + duration)| ≤ 1 / 1000)) ∧
    (∀ entries : List CaptionEntry,
      List.Pairwise (· < ·) (entries.enum.map fun p => p.1 + 1)) := by
  refine ⟨fun start duration hs hd => ?_, srt_numbers_pairwise⟩
  exact ⟨parse_format_srt start hs, parse_format_srt (start + duration) (by linarith),
    parse_format_vtt start hs, parse_format_vtt (start + duration) (by linarith)⟩

/-- C8 witness at start 0, duration 2. -/
theorem c8_timestamp_roundtrip_witness :
    (∃ v, parseTsWith ',' (format_srt_timestamp 0) = some v ∧ |v - 0| ≤ 1 / 1000) ∧
    (∃ v, parseTsWith ',' (format_srt_timestamp ((0 : ℚ) + 2)) = some v ∧
      |v - ((0 : ℚ) + 2)| ≤ 1 / 1000) ∧
    (∃ v, parseTsWith '.' (format_vtt_timestamp 0) = some v ∧ |v - 0| ≤ 1 / 1000) ∧
    (∃ v, parseTsWith '.' (format_vtt_timestamp ((0 : ℚ) + 2)) = some v ∧
      |v - ((0 : ℚ) + 2)| ≤ 1 / 1000) :=
  c8_timestamp_roundtrip.1 0 2 (by norm_num) (by norm_num)

lemma hexVal_hexChar (x : ℕ) (h : x < 16) : hexVal (hexChar x) = some x := by
  interval_cases x <;> decide

lemma char_ofNat_eight (c : Char) (h : c.toNat = 8) : Char.ofNat 8 = c := by
  rw [← h]; exact Char.ofNat_toNat c

lemma char_ofNat_twelve (c : Char) (h : c.toNat = 12) : Char.ofNat 12 = c := by
  rw [← h]; exact Char.ofNat_toNat c

lemma parseStrBody_quote (r : List Char) : parseStrBody ('"' :: r) = some ([], r) := by
  rw [parseStrBody.eq_def]; rfl

lemma parseStrBody_esc_quote (r : List Char) :
    parseStrBody ('\\' :: '"' :: r) = (parseStrBody r).map fun p => ('"' :: p.1, p.2) := by
  rw [parseStrBody.eq_def]; rfl

lemma parseStrBody_esc_backslash (r : List Char) :
    parseStrBody ('\\' :: '\\' :: r) = (parseStrBody r).map fun p => ('\\' :: p.1, p.2) := by
  rw [parseStrBody.eq_def]; rfl

lemma parseStrBody_esc_n (r : List Char) :
    parseStrBody ('\\' :: 'n' :: r) = (parseStrBody r).map fun p => ('\n' :: p.1, p.2) := by
  rw [parseStrBody.eq_def]; rfl

lemma parseStrBody_esc_r (r : List Char) :
    parseStrBody ('\\' :: 'r' :: r) = (parseStrBody r).map fun p => ('\r' :: p.1, p.2) := by
  rw [parseStrBody.eq_def]; rfl

lemma parseStrBody_esc_t (r : List Char) :
    parseStrBody ('\\' :: 't' :: r) = (parseStrBody r).map fun p => ('\t' :: p.1, p.2) := by
  rw [parseStrBody.eq_def]; rfl

lemma parseStrBody_esc_b (r : List Char) :
    parseStrBody ('\\' :: 'b' :: r) =
      (parseStrBody r).map fun p => (Char.ofNat 8 :: p.1, p.2) := by
  rw [parseStrBody.eq_def]; rfl

lemma parseStrBody_esc_f (r : List Char) :
    parseStrBody ('\\' :: 'f' :: r) =
      (parseStrBody r).map fun p => (Char.ofNat 12 :: p.1, p.2) := by
  rw [parseStrBody.eq_def]; rfl

lemma parseStrBody_esc_u (h1 h2 h3 h4 : Char) (r : List Char) :
    parseStrBody ('\\' :: 'u' :: h1 :: h2 :: h3 :: h4 :: r) =
      match hexVal h1, hexVal h2, hexVal h3, hexVal h4 with
      | some a, some b, some c, some d =>
        (parseStrBody r).map fun p => (Char.ofNat (4096 * a + 256 * b + 16 * c + d) :: p.1, p.2)
      | _, _, _, _ => none := by
  rw [parseStrBody.eq_def]; rfl

lemma parseStrBody_other (c : Char) (r : List Char) (hc1 : c ≠ '"') (hc2 : c ≠ '\\') :
    parseStrBody (c :: r) = (parseStrBody r).map fun p => (c :: p.1, p.2) := by
  rw [parseStrBody.eq_def]
  simp only [if_neg hc1, if_neg hc2]

lemma parseStrBody_escape : ∀ (l rest : List Char),
    parseStrBody ((l.map escCharL).flatten ++ ('"' :: rest)) = some (l, rest) := by
  intro l
  induction l with
  | nil => intro rest; rw [List.map_nil, List.flatten_nil, List.nil_append, parseStrBody_quote]
  | cons c cs ih =>
    intro rest
    rw [List.map_cons, List.flatten_cons, List.append_assoc]
    by_cases h1 : c = '"'
    · subst h1
      rw [show escCharL '"' = ['\\', '"'] from rfl]
      rw [List.cons_append, List.cons_append, List.nil_append, parseStrBody_esc_quote, ih]
      rfl
    · by_cases h2 : c = '\\'
      · subst h2
        rw [show escCharL '\\' = ['\\', '\\'] from rfl]
        rw [List.cons_append, List.cons_append, List.nil_append, parseStrBody_esc_backslash, ih]
        rfl
      · by_cases h3 : c = '\n'
        · subst h3
          rw [show escCharL '\n' = ['\\', 'n'] from rfl]
          rw [List.cons_append, List.cons_append, List.nil_append, parseStrBody_esc_n, ih]
          rfl
        · by_cases h4 : c = '\r'
          · subst h4
            rw [show escCharL '\r' = ['\\', 'r'] from rfl]
            rw [List.cons_append, List.cons_append, List.nil_append, parseStrBody_esc_r, ih]
            rfl
          · by_cases h5 : c = '\t'
            · subst h5
              rw [show escCharL '\t' = ['\\', 't'] from rfl]
              rw [List.cons_append, List.cons_append, List.nil_append, parseStrBody_esc_t, ih]
              rfl
            · by_cases h6 : c.toNat = 8
              · rw [show escCharL c = ['\\', 'b'] by
                  simp [escCharL, h1, h2, h3, h4, h5, h6]]
                rw [List.cons_append, List.cons_append, List.nil_append, parseStrBody_esc_b, ih,
                  char_ofNat_eight c h6]
                rfl
              · by_cases h7 : c.toNat = 12
                · rw [show escCharL c = ['\\', 'f'] by
                    simp [escCharL, h1, h2, h3, h4, h5, h6, h7]]
                  rw [List.cons_append, List.cons_append, List.nil_append, parseStrBody_esc_f, ih,
                    char_ofNat_twelve c h7]
                  rfl
                · by_cases h8 : c.toNat < 32
                  · rw [show escCharL c =
                        ['\\', 'u', '0', '0', hexChar (c.toNat / 16), hexChar (c.toNat % 16)] by
                      simp [escCharL, h1, h2, h3, h4, h5, h6, h7, h8]]
                    simp only [List.cons_append, List.nil_append]
                    rw [parseStrBody_esc_u]
                    rw [show hexVal '0' = some 0 from rfl,
                      hexVal_hexChar _ (show c.toNat / 16 < 16 by omega),
                      hexVal_hexChar _ (show c.toNat % 16 < 16 by omega)]
                    simp only [ih, Option.map_some]
                    rw [show 4096 * 0 + 256 * 0 + 16 * (c.toNat / 16) + c.toNat % 16 = c.toNat by
                      omega]
                    rw [Char.ofNat_toNat c]
                    rfl
                  · rw [show escCharL c = [c] by
                      simp [escCharL, h1, h2, h3, h4, h5, h6, h7, h8]]
                    rw [List.cons_append, List.nil_append, parseStrBody_other c _ h1 h2, ih]
                    rfl

lemma parseFrac_dot (rf : List Char) :
    parseFrac ('.' :: rf) = (parseNatL rf).map fun p => ((p.1 : ℚ) / 10 ^ p.2.1, p.2.2) := by
  rw [parseFrac.eq_def]; rfl

lemma parseExp_other (c : Char) (r : List Char) (h1 : c ≠ 'e') (h2 : c ≠ 'E') :
    parseExp (c :: r) = some (1, c :: r) := by
  rw [parseExp.eq_def]
  simp only [if_neg (show ¬(c = 'e' ∨ c = 'E') from fun h => h.elim h1 h2)]

lemma parseNum_neg (t : List Char) :
    parseNum ('-' :: t) = (parseNumAbs t).map fun p => (-p.1, p.2) := by
  rw [parseNum.eq_def]; rfl

lemma parseNum_pos (c : Char) (t : List Char) (h : c ≠ '-') :
    parseNum (c :: t) = parseNumAbs (c :: t) := by
  rw [parseNum.eq_def]
  simp only [if_neg h]

lemma parseNumAbs_render (i : ℕ) (D : List Char) (v : ℕ) (c : Char) (cs : List Char)
    (hD : D ≠ []) (hDdig : ∀ d ∈ D, isDig d = true)
    (hDval : D.foldl (fun a d => 10 * a + digVal d) 0 = v)
    (hc1 : isDig c = false) (hc2 : c ≠ 'e') (hc3 : c ≠ 'E') :
    parseNumAbs (natChars i ++ ('.' :: (D ++ (c :: cs)))) =
      some ((i : ℚ) + (v : ℚ) / 10 ^ D.length, c :: cs) := by
  unfold parseNumAbs
  rw [parseNatL_run (natChars i) _ i (natChars_ne_nil i) (natChars_all_dig i)
    (natChars_foldl i) (Or.inr ⟨'.', _, rfl, by decide⟩)]
  simp only []
  rw [parseFrac_dot,
    parseNatL_run D (c :: cs) v hD hDdig hDval (Or.inr ⟨c, cs, rfl, hc1⟩)]
  simp only [Option.map_some']
  rw [parseExp_other c cs hc2 hc3]
  simp only [mul_one]

lemma nat_div_mod_split (a k : ℕ) :
    ((a / 10 ^ k : ℕ) : ℚ) + ((a % 10 ^ k : ℕ) : ℚ) / 10 ^ k = (a : ℚ) / 10 ^ k := by
  have h2 : ((10 ^ k * (a / 10 ^ k) + a % 10 ^ k : ℕ) : ℚ) = (a : ℚ) := by
    exact_mod_cast congrArg (Nat.cast : ℕ → ℚ) (Nat.div_add_mod a (10 ^ k))
  have h : (10 ^ k : ℚ) ≠ 0 := by positivity
  push_cast at h2
  field_simp
  linarith

lemma int_natAbs_cast_nonneg (m : ℤ) (h : ¬m < 0) : ((m.natAbs : ℕ) : ℚ) = (m : ℚ) := by
  rw [Int.cast_natAbs, Int.cast_abs]
  have h2 : (0 : ℚ) ≤ (m : ℚ) := by exact_mod_cast not_lt.mp h
  exact abs_of_nonneg h2

lemma int_natAbs_cast_neg (m : ℤ) (h : m < 0) : ((m.natAbs : ℕ) : ℚ) = -(m : ℚ) := by
  rw [Int.cast_natAbs, Int.cast_abs]
  have h2 : (m : ℚ) < 0 := by exact_mod_cast h
  exact abs_of_neg h2

lemma parseNum_pyFloatRepr (q : ℚ) (hden : (q * 10 ^ decExp q).den = 1)
    (c : Char) (cs : List Char)
    (hc1 : isDig c = false) (hc2 : c ≠ 'e') (hc3 : c ≠ 'E') :
    parseNum ((pyFloatRepr q).data ++ (c :: cs)) = some (q, c :: cs) := by
  have hq10 : q * 10 ^ decExp q = (((q * 10 ^ decExp q).num : ℤ) : ℚ) := by
    conv_lhs => rw [← Rat.num_div_den (q * 10 ^ decExp q)]
    rw [hden]
    simp
  have hpow : ((10 : ℚ) ^ decExp q) ≠ 0 := by positivity
  have hq : q = (((q * 10 ^ decExp q).num : ℤ) : ℚ) / 10 ^ decExp q := by
    rw [← hq10]
    field_simp
  set k := decExp q with hkdef
  set m := (q * 10 ^ k).num with hmdef
  set a := m.natAbs with hadef
  have hmod : a % 10 ^ k < 10 ^ k := Nat.mod_lt _ (by positivity)
  by_cases hk : k = 0
  · have hqa : q = (m : ℚ) := by
      rw [hq, hk]
      norm_num
    by_cases hm0 : m < 0
    · have hdata : (pyFloatRepr q).data ++ (c :: cs) =
          '-' :: (natChars a ++ ('.' :: (['0'] ++ (c :: cs)))) := by
        simp only [pyFloatRepr, ← hkdef, ← hmdef, if_pos hk, if_pos hm0, ← hadef]
        simp [String.data_append, data_mk, natRepr]
      rw [hdata, parseNum_neg,
        parseNumAbs_render a ['0'] 0 c cs (by simp)
          (by intro d hd; simp at hd; subst hd; decide) (by decide) hc1 hc2 hc3]
      simp only [Option.map_some']
      refine congrArg (fun z => some (z, c :: cs)) ?_
      rw [int_natAbs_cast_neg m hm0, hqa]
      norm_num
    · have hdata : (pyFloatRepr q).data ++ (c :: cs) =
          natChars a ++ ('.' :: (['0'] ++ (c :: cs))) := by
        simp only [pyFloatRepr, ← hkdef, ← hmdef, if_pos hk, if_neg hm0, ← hadef]
        simp [String.data_append, data_mk, natRepr]
      have hhead : ∃ d ds, natChars a = d :: ds := by
        cases h : natChars a with
        | nil => exact absurd h (natChars_ne_nil a)
        | cons d ds => exact ⟨d, ds, rfl⟩
      obtain ⟨d, ds, hds⟩ := hhead
      have hdne : d ≠ '-' := by
        have := natChars_all_dig a d (by rw [hds]; simp)
        intro heq; subst heq; exact absurd this (by decide)
      rw [hdata, hds, List.cons_append, parseNum_pos d _ hdne, ← List.cons_append, ← hds,
        parseNumAbs_render a ['0'] 0 c cs (by simp)
          (by intro e he; simp at he; subst he; decide) (by decide) hc1 hc2 hc3]
      refine congrArg (fun z => some (z, c :: cs)) ?_
      rw [int_natAbs_cast_nonneg m hm0, hqa]
      norm_num
  · have hlen : (padN k (a % 10 ^ k)).data.length = k :=
      padN_length k _ (natChars_length_le _ k hmod (Nat.pos_of_ne_zero hk))
    have hqa : q = (m : ℚ) / 10 ^ k := hq
    by_cases hm0 : m < 0
    · have hdata : (pyFloatRepr q).data ++ (c :: cs) =
          '-' :: (natChars (a / 10 ^ k) ++ ('.' :: ((padN k (a % 10 ^ k)).data ++ (c :: cs)))) := by
        simp only [pyFloatRepr, ← hkdef, ← hmdef, if_neg hk, if_pos hm0, ← hadef]
        simp [String.data_append, data_mk, natRepr]
      rw [hdata, parseNum_neg,
        parseNumAbs_render (a / 10 ^ k) _ (a % 10 ^ k) c cs (padN_ne_nil k _)
          (padN_digits k _) (padN_foldl k _) hc1 hc2 hc3]
      simp only [Option.map_some']
      refine congrArg (fun z => some (z, c :: cs)) ?_
      rw [hlen, nat_div_mod_split a k, int_natAbs_cast_neg m hm0, hqa]
      ring
    · have hdata : (pyFloatRepr q).data ++ (c :: cs) =
          natChars (a / 10 ^ k) ++ ('.' :: ((padN k (a % 10 ^ k)).data ++ (c :: cs))) := by
        simp only [pyFloatRepr, ← hkdef, ← hmdef, if_neg hk, if_neg hm0, ← hadef]
        simp [String.data_append, data_mk, natRepr]
      have hhead : ∃ d ds, natChars (a / 10 ^ k) = d :: ds := by
        cases h : natChars (a / 10 ^ k) with
        | nil => exact absurd h (natChars_ne_nil _)
        | cons d ds => exact ⟨d, ds, rfl⟩
      obtain ⟨d, ds, hds⟩ := hhead
      have hdne : d ≠ '-' := by
        have := natChars_all_dig (a / 10 ^ k) d (by rw [hds]; simp)
        intro heq; subst heq; exact absurd this (by decide)
      rw [hdata, hds, List.cons_append, parseNum_pos d _ hdne, ← List.cons_append, ← hds,
        parseNumAbs_render (a / 10 ^ k) _ (a % 10 ^ k) c cs (padN_ne_nil k _)
          (padN_digits k _) (padN_foldl k _) hc1 hc2 hc3]
      refine congrArg (fun z => some (z, c :: cs)) ?_
      rw [hlen, nat_div_mod_split a k, int_natAbs_cast_nonneg m hm0, hqa]

lemma skipWs_ws (c : Char) (cs : List Char) (h : jws c = true) :
    skipWs (c :: cs) = skipWs cs := by
  simp [skipWs, List.dropWhile_cons, h]

lemma skipWs_not (c : Char) (cs : List Char) (h : jws c = false) :
    skipWs (c :: cs) = c :: cs := by
  simp [skipWs, List.dropWhile_cons, h]

lemma escL_flatten (s : String) : ((s.data.map escCharL).flatten) = (pyJsonStr s).data.tail.dropLast := by
  simp [pyJsonStr, String.data_append, data_mk]

lemma dumpEntry_data (t s : String) (d : ℚ) (rest : List Char) :
    (dumpEntry t s d).data ++ rest =
      ' ' :: ' ' :: '\x7b' :: '\n' :: ' ' :: ' ' :: ' ' :: ' ' ::
      '"' :: 't' :: 'e' :: 'x' :: 't' :: '"' :: ':' :: ' ' ::
      ('"' :: ((t.data.map escCharL).flatten ++
        ('"' :: (',' :: '\n' :: ' ' :: ' ' :: ' ' :: ' ' ::
        '"' :: 's' :: 't' :: 'a' :: 'r' :: 't' :: '"' :: ':' :: ' ' ::
        ('"' :: ((s.data.map escCharL).flatten ++
          ('"' :: (',' :: '\n' :: ' ' :: ' ' :: ' ' :: ' ' ::
          '"' :: 'd' :: 'u' :: 'r' :: 'a' :: 't' :: 'i' :: 'o' :: 'n' :: '"' :: ':' :: ' ' ::
          ((pyFloatRepr d).data ++
            ('\n' :: ' ' :: ' ' :: '\x7d' :: rest)))))))))) := by
  simp only [dumpEntry, pyJsonStr, String.data_append, data_mk, List.append_assoc]
  rfl

lemma jws_false_of_isDig (c : Char) (h : isDig c = true) : jws c = false := by
  by_contra hcon
  rw [Bool.not_eq_false, jws, Bool.or_eq_true, Bool.or_eq_true, Bool.or_eq_true] at hcon
  rcases hcon with ((hc | hc) | hc) | hc <;>
    (rw [decide_eq_true_iff] at hc; subst hc; exact absurd h (by decide))

lemma isDig_ne_quote (c : Char) (h : isDig c = true) : c ≠ '"' := by
  intro heq; subst heq; exact absurd h (by decide)

lemma isDig_ne_lbracket (c : Char) (h : isDig c = true) : c ≠ '[' := by
  intro heq; subst heq; exact absurd h (by decide)

lemma isDig_ne_lbrace (c : Char) (h : isDig c = true) : c ≠ '\x7b' := by
  intro heq; subst heq; exact absurd h (by decide)

lemma pyFloatRepr_head (d : ℚ) :
    ∃ c0 cs0, (pyFloatRepr d).data = c0 :: cs0 ∧ (c0 = '-' ∨ isDig c0 = true) := by
  simp only [pyFloatRepr]
  by_cases hk : decExp d = 0
  · rw [if_pos hk]
    by_cases hm : (d * 10 ^ decExp d).num < 0
    · rw [if_pos hm]
      refine ⟨'-', natChars (d * 10 ^ decExp d).num.natAbs ++ ('.' :: '0' :: []), ?_, Or.inl rfl⟩
      simp [String.data_append, data_mk, natRepr]
    · rw [if_neg hm]
      obtain ⟨c0, cs0, hds⟩ : ∃ c0 cs0,
          natChars (d * 10 ^ decExp d).num.natAbs = c0 :: cs0 := by
        cases h : natChars (d * 10 ^ decExp d).num.natAbs with
        | nil => exact absurd h (natChars_ne_nil _)
        | cons a b => exact ⟨a, b, rfl⟩
      refine ⟨c0, cs0 ++ ('.' :: '0' :: []), ?_, Or.inr ?_⟩
      · simp [String.data_append, data_mk, natRepr, hds]
      · exact natChars_all_dig _ c0 (by rw [hds]; simp)
  · rw [if_neg hk]
    by_cases hm : (d * 10 ^ decExp d).num < 0
    · rw [if_pos hm]
      refine ⟨'-', natChars ((d * 10 ^ decExp d).num.natAbs / 10 ^ decExp d) ++
        ('.' :: (padN (decExp d) ((d * 10 ^ decExp d).num.natAbs % 10 ^ decExp d)).data),
        ?_, Or.inl rfl⟩
      simp [String.data_append, data_mk, natRepr]
    · rw [if_neg hm]
      obtain ⟨c0, cs0, hds⟩ : ∃ c0 cs0,
          natChars ((d * 10 ^ decExp d).num.natAbs / 10 ^ decExp d) = c0 :: cs0 := by
        cases h : natChars ((d * 10 ^ decExp d).num.natAbs / 10 ^ decExp d) with
        | nil => exact absurd h (natChars_ne_nil _)
        | cons a b => exact ⟨a, b, rfl⟩
      refine ⟨c0, cs0 ++ ('.' :: (padN (decExp d) ((d * 10 ^ decExp d).num.natAbs % 10 ^ decExp d)).data), ?_, Or.inr ?_⟩
      · simp [String.data_append, data_mk, natRepr, hds]
      · exact natChars_all_dig _ c0 (by rw [hds]; simp)

lemma parseVal_strMember (f : ℕ) (x : String) (R3 : List Char) :
    parseVal (f + 1) (' ' :: '"' :: ((x.data.map escCharL).flatten ++ ('"' :: R3))) =
      some (.str x, R3) := by
  simp only [parseVal]
  rw [skipWs_ws _ _ (by decide), skipWs_not _ _ (by decide)]
  simp [parseStrBody_escape x.data R3, mk_data]

lemma parseVal_numMember (f : ℕ) (d : ℚ) (hden : (d * 10 ^ decExp d).den = 1)
    (rest : List Char) :
    parseVal (f + 1) (' ' :: ((pyFloatRepr d).data ++ ('\n' :: ' ' :: ' ' :: '\x7d' :: rest))) =
      some (.num d, '\n' :: ' ' :: ' ' :: '\x7d' :: rest) := by
  obtain ⟨c0, cs0, hds, hc0⟩ := pyFloatRepr_head d
  have hnum := parseNum_pyFloatRepr d hden '\n' (' ' :: ' ' :: '\x7d' :: rest)
    (by decide) (by decide) (by decide)
  have hjws : jws c0 = false := by
    rcases hc0 with rfl | hdig
    · decide
    · exact jws_false_of_isDig c0 hdig
  have hnq : c0 ≠ '"' := by
    rcases hc0 with rfl | hdig
    · decide
    · exact isDig_ne_quote c0 hdig
  have hnb : c0 ≠ '[' := by
    rcases hc0 with rfl | hdig
    · decide
    · exact isDig_ne_lbracket c0 hdig
  have hnc : c0 ≠ '\x7b' := by
    rcases hc0 with rfl | hdig
    · decide
    · exact isDig_ne_lbrace c0 hdig
  have hcond : (c0 = '-' || isDig c0) = true := by
    rcases hc0 with rfl | hdig
    · decide
    · simp [hdig]
  rw [hds] at hnum ⊢
  simp only [List.cons_append] at hnum ⊢
  simp only [parseVal]
  rw [skipWs_ws _ _ (by decide), skipWs_not _ _ hjws]
  simp only [if_neg hnq, if_neg hnb, if_neg hnc, if_pos hcond, hnum, Option.map_some']

lemma parseStrBody_key_text (X : List Char) :
    parseStrBody ('t' :: 'e' :: 'x' :: 't' :: '"' :: X) = some (['t', 'e', 'x', 't'], X) := by
  have h := parseStrBody_escape ['t', 'e', 'x', 't'] X
  rw [show ((['t', 'e', 'x', 't'].map escCharL).flatten) = ['t', 'e', 'x', 't'] from by decide]
    at h
  simpa using h

lemma parseStrBody_key_start (X : List Char) :
    parseStrBody ('s' :: 't' :: 'a' :: 'r' :: 't' :: '"' :: X) =
      some (['s', 't', 'a', 'r', 't'], X) := by
  have h := parseStrBody_escape ['s', 't', 'a', 'r', 't'] X
  rw [show ((['s', 't', 'a', 'r', 't'].map escCharL).flatten) = ['s', 't', 'a', 'r', 't'] from by
    decide] at h
  simpa using h

lemma parseStrBody_key_duration (X : List Char) :
    parseStrBody ('d' :: 'u' :: 'r' :: 'a' :: 't' :: 'i' :: 'o' :: 'n' :: '"' :: X) =
      some (['d', 'u', 'r', 'a', 't', 'i', 'o', 'n'], X) := by
  have h := parseStrBody_escape ['d', 'u', 'r', 'a', 't', 'i', 'o', 'n'] X
  rw [show ((['d', 'u', 'r', 'a', 't', 'i', 'o', 'n'].map escCharL).flatten) =
    ['d', 'u', 'r', 'a', 't', 'i', 'o', 'n'] from by decide] at h
  simpa using h

lemma parseMembers_dump (f : ℕ) (t s : String) (d : ℚ)
    (hden : (d * 10 ^ decExp d).den = 1) (rest : List Char) :
    parseMembers (f + 4)
      ('\n' :: ' ' :: ' ' :: ' ' :: ' ' ::
       '"' :: 't' :: 'e' :: 'x' :: 't' :: '"' :: ':' :: ' ' ::
       ('"' :: ((t.data.map escCharL).flatten ++ ('"' :: (',' :: '\n' :: ' ' :: ' ' :: ' ' :: ' ' ::
       '"' :: 's' :: 't' :: 'a' :: 'r' :: 't' :: '"' :: ':' :: ' ' ::
       ('"' :: ((s.data.map escCharL).flatten ++ ('"' :: (',' :: '\n' :: ' ' :: ' ' :: ' ' :: ' ' ::
       '"' :: 'd' :: 'u' :: 'r' :: 'a' :: 't' :: 'i' :: 'o' :: 'n' :: '"' :: ':' :: ' ' ::
       ((pyFloatRepr d).data ++ ('\n' :: ' ' :: ' ' :: '\x7d' :: rest))))))))))) =
      some ([("text", .str t), ("start", .str s), ("duration", .num d)], rest) := by
  have hv1 := parseVal_strMember (f + 2) t (',' :: '\n' :: ' ' :: ' ' :: ' ' :: ' ' ::
    '"' :: 's' :: 't' :: 'a' :: 'r' :: 't' :: '"' :: ':' :: ' ' ::
    ('"' :: ((s.data.map escCharL).flatten ++ ('"' :: (',' :: '\n' :: ' ' :: ' ' :: ' ' :: ' ' ::
    '"' :: 'd' :: 'u' :: 'r' :: 'a' :: 't' :: 'i' :: 'o' :: 'n' :: '"' :: ':' :: ' ' ::
    ((pyFloatRepr d).data ++ ('\n' :: ' ' :: ' ' :: '\x7d' :: rest)))))))
  have hv2 := parseVal_strMember (f + 1) s (',' :: '\n' :: ' ' :: ' ' :: ' ' :: ' ' ::
    '"' :: 'd' :: 'u' :: 'r' :: 'a' :: 't' :: 'i' :: 'o' :: 'n' :: '"' :: ':' :: ' ' ::
    ((pyFloatRepr d).data ++ ('\n' :: ' ' :: ' ' :: '\x7d' :: rest)))
  have hv3 := parseVal_numMember f d hden rest
  rw [show f + 2 + 1 = f + 3 from rfl] at hv1
  rw [show f + 1 + 1 = f + 2 from rfl] at hv2
  simp only [parseMembers, skipWs_ws '\n', skipWs_ws ' ', skipWs_not '"', skipWs_not ':',
    skipWs_not ',', skipWs_not '\x7d',
    show jws '\n' = true from by decide, show jws ' ' = true from by decide,
    show jws '"' = false from by decide, show jws ':' = false from by decide,
    show jws ',' = false from by decide, show jws '\x7d' = false from by decide,
    parseStrBody_key_text, parseStrBody_key_start, parseStrBody_key_duration,
    hv1, hv2, hv3, Option.map_some',
    show (⟨['t', 'e', 'x', 't']⟩ : String) = "text" from rfl,
    show (⟨['s', 't', 'a', 'r', 't']⟩ : String) = "start" from rfl,
    show (⟨['d', 'u', 'r', 'a', 't', 'i', 'o', 'n']⟩ : String) = "duration" from rfl]

lemma parseVal_dumpEntry (f : ℕ) (t s : String) (d : ℚ)
    (hden : (d * 10 ^ decExp d).den = 1) (rest : List Char) :
    parseVal (f + 5) ((dumpEntry t s d).data ++ rest) =
      some (.obj [("text", .str t), ("start", .str s), ("duration", .num d)], rest) := by
  rw [dumpEntry_data]
  have hm := parseMembers_dump f t s d hden rest
  simp only [parseVal, skipWs_ws '\n', skipWs_ws ' ', skipWs_not '\x7b', skipWs_not '"',
    show jws '\n' = true from by decide, show jws ' ' = true from by decide,
    show jws '\x7b' = false from by decide, show jws '"' = false from by decide,
    show (('\x7b' : Char) = '"') = False from by decide,
    show (('\x7b' : Char) = '[') = False from by decide,
    show (('\x7b' : Char) = '\x7b') = True from by decide,
    if_false, if_true, ite_false, ite_true, hm, Option.map_some']
  rfl

lemma parseVal_ws (f : ℕ) (c : Char) (cs : List Char) (h : jws c = true) :
    parseVal (f + 1) (c :: cs) = parseVal (f + 1) cs := by
  simp only [parseVal]
  rw [skipWs_ws c cs h]

lemma parseElems_loop : ∀ (l : List (String × String × ℚ)) (f : ℕ) (rest : List Char),
    l ≠ [] → (∀ e ∈ l, (e.2.2 * 10 ^ decExp e.2.2).den = 1) →
    parseElems (f + 6 * l.length)
      ('\n' :: ((pyJoin ",\n" (l.map fun e => dumpEntry e.1 e.2.1 e.2.2)).data ++
        ('\n' :: ']' :: rest))) =
      some (l.map fun e => JVal.obj [("text", .str e.1), ("start", .str e.2.1),
        ("duration", .num e.2.2)], rest) := by
  intro l
  induction l with
  | nil => intro f rest h _; exact absurd rfl h
  | cons a l' ih =>
    intro f rest _ hden
    cases l' with
    | nil =>
      have hv : parseVal (f + 5) ('\n' :: ((dumpEntry a.1 a.2.1 a.2.2).data ++
          ('\n' :: ']' :: rest))) =
          some (.obj [("text", .str a.1), ("start", .str a.2.1), ("duration", .num a.2.2)],
            '\n' :: ']' :: rest) := by
        rw [show f + 5 = (f + 4) + 1 from rfl, parseVal_ws _ '\n' _ (by decide),
          show f + 4 + 1 = f + 5 from rfl]
        exact parseVal_dumpEntry f a.1 a.2.1 a.2.2 (hden a (by simp)) ('\n' :: ']' :: rest)
      show parseElems (f + 6 * 1) _ = _
      rw [show f + 6 * 1 = (f + 5) + 1 from rfl]
      simp only [parseElems, List.map_cons, List.map_nil, pyJoin, hv,
        skipWs_ws '\n', skipWs_not ']',
        show jws '\n' = true from by decide, show jws ']' = false from by decide]
    | cons b l'' =>
      have hvden : ∀ e ∈ (b :: l''), (e.2.2 * 10 ^ decExp e.2.2).den = 1 :=
        fun e he => hden e (by simp [he])
      have hIH := ih (f + 5) rest (by simp) hvden
      have hjoin : pyJoin ",\n" ((a :: b :: l'').map fun e => dumpEntry e.1 e.2.1 e.2.2) =
          dumpEntry a.1 a.2.1 a.2.2 ++ ",\n" ++
            pyJoin ",\n" ((b :: l'').map fun e => dumpEntry e.1 e.2.1 e.2.2) := by
        rw [List.map_cons]
        exact pyJoin_cons _ _ _ (by simp)
      have hlen : f + 6 * (a :: b :: l'').length = (f + 6 * (b :: l'').length + 5) + 1 := by
        simp [List.length_cons]
        ring
      have hv : parseVal (f + 6 * (b :: l'').length + 5)
          ('\n' :: ((dumpEntry a.1 a.2.1 a.2.2).data ++
            (',' :: '\n' :: ((pyJoin ",\n" ((b :: l'').map fun e =>
              dumpEntry e.1 e.2.1 e.2.2)).data ++ ('\n' :: ']' :: rest))))) =
          some (.obj [("text", .str a.1), ("start", .str a.2.1), ("duration", .num a.2.2)],
            ',' :: '\n' :: ((pyJoin ",\n" ((b :: l'').map fun e =>
              dumpEntry e.1 e.2.1 e.2.2)).data ++ ('\n' :: ']' :: rest))) := by
        rw [show f + 6 * (b :: l'').length + 5 = (f + 6 * (b :: l'').length + 4) + 1 from rfl,
          parseVal_ws _ '\n' _ (by decide),
          show f + 6 * (b :: l'').length + 4 + 1 = (f + 6 * (b :: l'').length) + 5 from rfl]
        exact parseVal_dumpEntry _ a.1 a.2.1 a.2.2 (hden a (by simp)) _
      rw [hlen]
      simp only [hjoin, String.data_append, List.append_assoc,
        show (",\n" : String).data = [',', '\n'] from rfl,
        List.cons_append, List.nil_append]
      rw [parseElems]
      simp only [hv, skipWs_not ',', show jws ',' = false from by decide]
      rw [show f + 6 * (b :: l'').length + 5 = (f + 5) + 6 * (b :: l'').length from by ring]
      rw [hIH]
      simp only [List.map_cons, Option.map_some']

lemma dumpEntry_length (t s : String) (d : ℚ) : 6 ≤ (dumpEntry t s d).data.length := by
  have h := dumpEntry_data t s d []
  rw [List.append_nil] at h
  rw [h]
  simp

lemma pyJoin_dump_length (l : List (String × String × ℚ)) (h : l ≠ []) :
    6 * l.length ≤ (pyJoin ",\n" (l.map fun e => dumpEntry e.1 e.2.1 e.2.2)).data.length := by
  induction l with
  | nil => exact absurd rfl h
  | cons a l' ih =>
    cases l' with
    | nil =>
      simp only [List.map_cons, List.map_nil, pyJoin, List.length_cons, List.length_nil]
      have := dumpEntry_length a.1 a.2.1 a.2.2
      omega
    | cons b l'' =>
      rw [List.map_cons,
        pyJoin_cons ",\n" (dumpEntry a.1 a.2.1 a.2.2) _ (by simp),
        String.data_append, String.data_append, List.length_append, List.length_append]
      have h1 := dumpEntry_length a.1 a.2.1 a.2.2
      have h2 := ih (by simp)
      simp only [List.length_cons] at h2 ⊢
      have h3 : (",\n" : String).data.length = 2 := rfl
      omega

lemma dump_stream_head (t s : String) (d : ℚ) (X : List Char) :
    ∃ Y, skipWs ('\n' :: ((dumpEntry t s d).data ++ X)) = '\x7b' :: Y := by
  rw [dumpEntry_data]
  rw [skipWs_ws _ _ (by decide), skipWs_ws _ _ (by decide), skipWs_ws _ _ (by decide),
    skipWs_not _ _ (by decide)]
  exact ⟨_, rfl⟩

lemma pyJsonDumps_data (l : List (String × String × ℚ)) (hl : l ≠ []) :
    (pyJsonDumps l).data =
      '[' :: '\n' :: ((pyJoin ",\n" (l.map fun e => dumpEntry e.1 e.2.1 e.2.2)).data ++
        ('\n' :: ']' :: [])) := by
  simp only [pyJsonDumps, if_neg (by simp [hl] : ¬l.isEmpty = true)]
  simp [String.data_append, data_mk]

lemma join_stream_head (l : List (String × String × ℚ)) (hl : l ≠ []) (X : List Char) :
    ∃ Y, skipWs ('\n' :: ((pyJoin ",\n" (l.map fun e => dumpEntry e.1 e.2.1 e.2.2)).data ++ X)) =
      '\x7b' :: Y := by
  cases l with
  | nil => exact absurd rfl hl
  | cons a l' =>
    cases l' with
    | nil =>
      show ∃ Y, skipWs ('\n' :: ((dumpEntry a.1 a.2.1 a.2.2).data ++ X)) = '\x7b' :: Y
      exact dump_stream_head _ _ _ X
    | cons b l'' =>
      rw [List.map_cons, pyJoin_cons _ _ _ (by simp), String.data_append, String.data_append,
        List.append_assoc, List.append_assoc]
      exact dump_stream_head _ _ _ _

lemma pyJsonDumps_parse (l : List (String × String × ℚ))
    (hden : ∀ e ∈ l, (e.2.2 * 10 ^ decExp e.2.2).den = 1) :
    parseJson (pyJsonDumps l) =
      some (.arr (l.map fun e => JVal.obj [("text", .str e.1), ("start", .str e.2.1),
        ("duration", .num e.2.2)])) := by
  cases l with
  | nil => rfl
  | cons a l' =>
    have hD := pyJsonDumps_data (a :: l') (by simp)
    have hlen : 6 * (a :: l').length ≤
        (pyJoin ",\n" ((a :: l').map fun e => dumpEntry e.1 e.2.1 e.2.2)).data.length + 1 := by
      have := pyJoin_dump_length (a :: l') (by simp)
      omega
    obtain ⟨Y, hY⟩ := join_stream_head (a :: l') (by simp) ('\n' :: ']' :: [])
    obtain ⟨f, hf⟩ : ∃ f,
        (pyJoin ",\n" ((a :: l').map fun e => dumpEntry e.1 e.2.1 e.2.2)).data.length + 5 =
          f + 6 * (a :: l').length := by
      refine ⟨(pyJoin ",\n" ((a :: l').map fun e =>
        dumpEntry e.1 e.2.1 e.2.2)).data.length + 5 - 6 * (a :: l').length, ?_⟩
      omega
    have hloop := parseElems_loop (a :: l') f [] (by simp) hden
    rw [← hf] at hloop
    have hflen : ('[' :: '\n' ::
        ((pyJoin ",\n" ((a :: l').map fun e => dumpEntry e.1 e.2.1 e.2.2)).data ++
          ('\n' :: ']' :: []))).length + 2 =
        ((pyJoin ",\n" ((a :: l').map fun e => dumpEntry e.1 e.2.1 e.2.2)).data.length + 5) + 1 := by
      simp [List.length_append]
    unfold parseJson
    rw [hD, hflen, parseVal]
    rw [skipWs_not '[' _ (by decide)]
    simp only [show (('[' : Char) = '"') = False from by decide,
      show (('[' : Char) = '[') = True from by decide,
      if_false, if_true, ite_false, ite_true, hY, hloop]
    rfl

/-- C5: for every entry sequence, the json branch of `format_transcript`
returns the `json.dumps` serialization (2-space indent) of the array of
\x7b text, start, duration \x7d objects; that output parses back as a JSON array
whose elements are exactly the promised objects (literal text, the
bracket-stripped `HH:MM:SS` start string, the raw numeric duration) and whose
length equals the entry count; and the serializer leaves every printable
character other than quote and backslash (in particular all non-ASCII
characters) literal.  The duration hypothesis states that each duration is
exactly representable in decimal (true of every float). -/
theorem c5_json_format (transcript : List CaptionEntry) (ts : Bool)
    (hden : ∀ e ∈ transcript, (e.duration * 10 ^ decExp e.duration).den = 1) :
    format_transcript transcript "json" ts =
      .ok (pyJsonDumps (transcript.map fun e =>
        (e.text, pyStrip (format_timestamp e) ['[', ']'], e.duration))) ∧
    parseJson (pyJsonDumps (transcript.map fun e =>
        (e.text, pyStrip (format_timestamp e) ['[', ']'], e.duration))) =
      some (.arr (transcript.map jsonEntryVal)) ∧
    (transcript.map jsonEntryVal).length = transcript.length ∧
    (∀ c : Char, 32 ≤ c.toNat → c ≠ '"' → c ≠ '\\' → escCharL c = [c]) := by
  refine ⟨rfl, ?_, transcript.length_map _, ?_⟩
  · have h' : ∀ e ∈ (transcript.map fun e =>
        (e.text, pyStrip (format_timestamp e) ['[', ']'], e.duration)),
        (e.2.2 * 10 ^ decExp e.2.2).den = 1 := by
      intro e he
      obtain ⟨x, hx, rfl⟩ := List.mem_map.1 he
      exact hden x hx
    rw [pyJsonDumps_parse _ h', List.map_map]
    rfl
  · intro c h1 h2 h3
    have hn : c ≠ '\n' := fun h => by rw [h] at h1; exact absurd h1 (by decide)
    have hr : c ≠ '\r' := fun h => by rw [h] at h1; exact absurd h1 (by decide)
    have ht : c ≠ '\t' := fun h => by rw [h] at h1; exact absurd h1 (by decide)
    have h8 : ¬ c.toNat = 8 := by omega
    have h12 : ¬ c.toNat = 12 := by omega
    have hlt : ¬ c.toNat < 32 := by omega
    rw [escCharL, if_neg h2, if_neg h3, if_neg hn, if_neg hr, if_neg ht,
      if_neg h8, if_neg h12, if_neg hlt]

/-- C5 witness at the two running example entries. -/
theorem c5_json_format_witness :
    format_transcript [helloEntry, worldEntry] "json" true =
      .ok (pyJsonDumps ([helloEntry, worldEntry].map fun e =>
        (e.text, pyStrip (format_timestamp e) ['[', ']'], e.duration))) ∧
    parseJson (pyJsonDumps ([helloEntry, worldEntry].map fun e =>
        (e.text, pyStrip (format_timestamp e) ['[', ']'], e.duration))) =
      some (.arr ([helloEntry, worldEntry].map jsonEntryVal)) ∧
    ([helloEntry, worldEntry].map jsonEntryVal).length = [helloEntry, worldEntry].length ∧
    (∀ c : Char, 32 ≤ c.toNat → c ≠ '"' → c ≠ '\\' → escCharL c = [c]) :=
  c5_json_format [helloEntry, worldEntry] true (by
    intro e he
    rcases List.mem_cons.1 he with rfl | he2
    · show ((2 : ℚ) * 10 ^ decExp (2 : ℚ)).den = 1
      rw [show decExp (2 : ℚ) = 0 from rfl, pow_zero, mul_one]
      rfl
    · rcases List.mem_cons.1 he2 with rfl | h
      · show ((3 : ℚ) * 10 ^ decExp (3 : ℚ)).den = 1
        rw [show decExp (3 : ℚ) = 0 from rfl, pow_zero, mul_one]
        rfl
      · exact absurd h (List.not_mem_nil e))
